import Mathlib

/-!
# Verification of the goircd daemon (src/goircd.go)

This file shallowly embeds the daemon part of goircd: the registration
sub-machine (`ClientRegister`), room registration (`RoomRegister`), JOIN
handling (`HandlerJoin`), the startup state-directory scan (`loadStates`)
and the main event loop body (`processEvent`, one iteration of the Go
`Processor` loop).

Modelling conventions:
* Go pointers (`*Client`, `*Room`) become heap identifiers (`Nat`) with
  explicit heaps (`List (Nat × Client)`, `List (Nat × Room)`); a pointer
  dereference is a heap lookup, a field assignment is a heap update.
* Go maps become association lists; `m[k] = v` is insert-with-replace,
  `delete(m, k)` removes the key.  Go map iteration order is unspecified;
  wherever the source iterates a map we iterate the association list and
  only prove order-insensitive facts.
* Channel sends become accumulated `Output` values; `log.Fatalf` (which
  aborts the process) becomes `Output.fatal`, a Go runtime panic becomes
  `Output.panicked`.
* `time.Time` becomes a `Nat` number of seconds, so that
  `t.Add(PingTimeout).Before(now)` is `t + 180 < now`.
* Text replies written through the missing client.go helpers
  (`ReplyNicknamed` &c.) are kept abstract as `ClientMsg` constructors;
  only their arguments, not the final wire formatting, matter here.
-/

/- All string operations are defined structurally over the character
list `String.data`, so that the kernel can evaluate them on concrete
inputs.  Every separator/cutset the source passes to the strings package
is a single character, so single-character variants suffice. -/

/-- ASCII lower-casing of one character (Go `strings.ToLower`; goircd only
ever compares ASCII nicknames and channel names). -/
def lowerChar (c : Char) : Char :=
  if 'A' ≤ c && c ≤ 'Z' then Char.ofNat (c.toNat + 32) else c

/-- ASCII upper-casing of one character (Go `strings.ToUpper`). -/
def upperChar (c : Char) : Char :=
  if 'a' ≤ c && c ≤ 'z' then Char.ofNat (c.toNat - 32) else c

def lowerStr (s : String) : String := String.mk (s.data.map lowerChar)

def upperStr (s : String) : String := String.mk (s.data.map upperChar)

/-- Go `len(s)` (byte length; identical to character count on the ASCII
data the daemon compares). -/
def strLen (s : String) : Nat := s.data.length

def splitChAux (sep : Char) : List Char → List Char → List String
  | [], acc => [String.mk acc.reverse]
  | d :: rest, acc =>
    if d == sep then String.mk acc.reverse :: splitChAux sep rest []
    else splitChAux sep rest (d :: acc)

/-- Go `strings.Split(s, sep)` for a one-character separator. -/
def splitCh (sep : Char) (s : String) : List String := splitChAux sep s.data []

/-- Go `strings.Join(l, sep)`. -/
def joinStr (sep : String) : List String → String
  | [] => ""
  | [x] => x
  | x :: xs => x ++ sep ++ joinStr sep xs

/-- Go `strings.SplitN(s, sep, n)` for `n ≥ 1`:
like `splitCh` but the last of the `n` pieces keeps the rest unsplit. -/
def goSplitN (s : String) (sep : Char) (n : Nat) : List String :=
  let parts := splitCh sep s
  if parts.length ≤ n then parts
  else parts.take (n - 1) ++ [joinStr (String.mk [sep]) (parts.drop (n - 1))]

/-- Go `strings.TrimLeft(s, cutset)` for a one-character cutset. -/
def goTrimLeft (s : String) (c : Char) : String :=
  String.mk (s.data.dropWhile (fun d => d == c))

/-- Go `strings.TrimPrefix(s, ":")`: drop one leading colon if present. -/
def dropColon (s : String) : String :=
  match s.data with
  | ':' :: rest => String.mk rest
  | _ => s

/-- Go `strings.TrimSuffix(s, "\n")`: drop one trailing newline if present. -/
def goTrimSuffixNl (s : String) : String :=
  if s.data.getLast? == some '\n' then String.mk s.data.dropLast else s

/-- Byte-wise (here: character-wise) lexicographic comparison,
as used by Go `sort.Strings`. -/
def charListLt : List Char → List Char → Bool
  | [], [] => false
  | [], _ :: _ => true
  | _ :: _, [] => false
  | a :: as, b :: bs =>
    if a < b then true else if b < a then false else charListLt as bs

def strLtB (a b : String) : Bool := charListLt a.data b.data

def insertSorted (x : String) : List String → List String
  | [] => [x]
  | y :: ys => if strLtB x y then x :: y :: ys else y :: insertSorted x ys

/-- Go `sort.Strings`. -/
def sortStrings : List String → List String
  | [] => []
  | x :: xs => insertSorted x (sortStrings xs)

/-- Association-list insert with replace: Go `m[k] = v`. -/
def insA {κ α : Type} [BEq κ] (l : List (κ × α)) (k : κ) (v : α) : List (κ × α) :=
  (k, v) :: l.filter (fun p => p.1 != k)

/-- Association-list delete: Go `delete(m, k)`. -/
def delA {κ α : Type} [BEq κ] (l : List (κ × α)) (k : κ) : List (κ × α) :=
  l.filter (fun p => p.1 != k)

/-- `RENickname = "^[a-zA-Z0-9-]{1,24}$"` (src/goircd.go line 201). -/
def reNicknameMatch (s : String) : Bool :=
  decide (1 ≤ strLen s) && decide (strLen s ≤ 24) &&
    s.data.all (fun c => c.isAlpha || c.isDigit || c == '-')

/-- Modelled from the spec: `RoomNameValid` lives in the missing room.go;
the spec's Glossary gives the channel-name rule `^#[^\s,]+$`. -/
def RoomNameValid (s : String) : Bool :=
  match s.data with
  | '#' :: rest => !rest.isEmpty && rest.all (fun c => !c.isWhitespace && c != ',')
  | _ => false

/-- Max deadline time of client's unresponsiveness, in seconds
(`PingTimeout = time.Second * 180`). -/
def PingTimeout : Nat := 180

/-- Max idle client's time before PING are sent, in seconds
(`PingThreshold = time.Second * 90`). -/
def PingThreshold : Nat := 90

/-- The server-side view of one connected user (struct Client; the struct
itself is declared in the missing client.go, its fields are exactly the
ones the daemon code reads and writes). -/
structure Client where
  nickname : String := "*"
  username : String := ""
  realname : String := ""
  password : Option String := none
  away : Option String := none
  registered : Bool := false
  closed : Bool := false
  recvTimestamp : Nat := 0
  sendTimestamp : Nat := 0
  remoteHost : String := ""
  deriving Repr, DecidableEq

/-- Modelled from the spec: the Client `String()` form (missing client.go)
is the prefix `nick!user@host`. -/
def clientStr (c : Client) : String :=
  c.nickname ++ "!" ++ c.username ++ "@" ++ c.remoteHost

/-- A room (struct Room of the missing room.go); the daemon reads and
writes exactly these fields. `members` is owned by the room actor
(missing room.go); the daemon only reads its size on tick. -/
structure Room where
  name : String
  topic : String := ""
  key : String := ""
  members : List Nat := []
  deriving Repr, DecidableEq

inductive EventType where
  | EventNew
  | EventDel
  | EventMsg
  | EventTopic
  | EventWho
  | EventMode
  | EventTerm
  | EventTick
  deriving Repr, DecidableEq

/-- `ClientEvent{client, eventType, text}`; the `*Client` pointer becomes
an optional heap identifier. -/
structure ClientEvent where
  client : Option Nat := none
  eventType : EventType
  text : String := ""
  deriving Repr, DecidableEq

/-- A reply produced through the missing client.go output helpers; kept
abstract (constructor per helper, arguments as passed at the call site). -/
inductive ClientMsg where
  | replyNicknamed (code : String) (args : List String)
  | replyParts (code : String) (args : List String)
  | reply (line : String)
  | msgLine (line : String)
  | notEnoughParams (cmd : String)
  | noChannel (name : String)
  | noNickChan (name : String)
  deriving Repr, DecidableEq

/-- One observable effect of a daemon step. -/
inductive Output where
  | toClient (cid : Nat) (m : ClientMsg)
  | toRoom (sink : Nat) (ev : ClientEvent)
  | nilChanSend (ev : ClientEvent)
  | closeSink (sink : Nat)
  | stateSave (rname topic key : String)
  | fatal (s : String)
  | panicked (s : String)
  | closedFinished
  deriving Repr, DecidableEq

/-- The package-level configuration flags and file contents the daemon
reads (`hostname`, `statedir`, `passwords`, `motd`, `verbose`,
`version`).  File reads are snapshots: `none` models a read error. -/
structure Env where
  hostname : String := "localhost"
  version : String := ""
  statedir : String := ""
  passwords : String := ""
  passwordsFile : Option String := none
  motdIsNil : Bool := false
  motdFile : Option String := none
  verbose : Bool := false
  deriving Repr, DecidableEq

/-- The daemon-owned global mutable state: the client heap and registry
(`clients map[*Client]struct{}`), the room registry (`rooms` and
`roomSinks`) and the room heap.  `nextId` is the allocator for fresh
pointers/sinks. -/
structure DaemonState where
  clientHeap : List (Nat × Client) := []
  clients : List Nat := []
  rooms : List (String × Nat) := []
  roomSinks : List (Nat × Nat) := []
  roomHeap : List (Nat × Room) := []
  nextId : Nat := 0
  deriving Repr, DecidableEq

/-- Write a client struct back to the heap (a Go field assignment through
the `*Client` pointer). -/
def putC (st : DaemonState) (cid : Nat) (c : Client) : DaemonState :=
  { st with clientHeap := insA st.clientHeap cid c }

/-- Write a room struct back to the heap. -/
def putR (st : DaemonState) (rid : Nat) (r : Room) : DaemonState :=
  { st with roomHeap := insA st.roomHeap rid r }

/-- `SendLusers` (lines 208-216): count of registered clients. -/
def lusersCount (st : DaemonState) : Nat :=
  (st.clients.filter (fun i =>
    match st.clientHeap.lookup i with
    | some c => c.registered
    | none => false)).length

def sendLusers (st : DaemonState) : ClientMsg :=
  .replyNicknamed "251"
    ["There are " ++ toString (lusersCount st) ++ " users and 0 invisible on 1 servers"]

/-- `SendMotd` (lines 218-234). -/
def sendMotd (env : Env) : List ClientMsg :=
  if env.motdIsNil then [.replyNicknamed "422" ["MOTD File is missing"]]
  else
    match env.motdFile with
    | none => [.replyNicknamed "422" ["Error reading MOTD File"]]
    | some motdText =>
      [.replyNicknamed "375" ["- " ++ env.hostname ++ " Message of the day -"]] ++
      (splitCh '\n' (goTrimSuffixNl motdText)).map
        (fun s => ClientMsg.replyNicknamed "372" ["- " ++ s]) ++
      [.replyNicknamed "376" ["End of /MOTD command"]]

/-- Result of scanning the password-file entries (lines 363-372):
`deny` when some entry `lp` has `lp[0] == nickname && lp[1] != password`;
`panicked` models Go's index-out-of-range when a nickname-matching entry
has no colon. -/
inductive PassCheck where
  | ok
  | deny
  | panicked
  deriving Repr, DecidableEq

def passEntriesCheck (nick pass : String) : List String → PassCheck
  | [] => .ok
  | entry :: rest =>
    if entry == "" then passEntriesCheck nick pass rest
    else
      match splitCh ':' entry with
      | [] => passEntriesCheck nick pass rest
      | [single] =>
        if single == nick then .panicked else passEntriesCheck nick pass rest
      | p0 :: p1 :: _ =>
        if p0 == nick then
          if p1 != pass then .deny else passEntriesCheck nick pass rest
        else passEntriesCheck nick pass rest

/-- Does some client in the registry currently hold this nickname
(lines 326-331)? -/
def nickInUse (st : DaemonState) (nickname : String) : Bool :=
  st.clients.any (fun i =>
    match st.clientHeap.lookup i with
    | some ec => ec.nickname == nickname
    | none => false)

/-- The `switch cmd` of `ClientRegister` (lines 310-350).  Returns the
updated client, the replies, and whether the Go code `return`ed early
(skipping the registration-completion check). -/
def regSwitch (st : DaemonState) (c : Client) (cmd : String) (cols : List String) :
    Client × List ClientMsg × Bool :=
  match cmd with
  | "PASS" =>
    if cols.length == 1 || decide (strLen (cols.getD 1 "") < 1) then
      (c, [.notEnoughParams "PASS"], true)
    else ({ c with password := some (cols.getD 1 "") }, [], false)
  | "NICK" =>
    if cols.length == 1 || decide (strLen (cols.getD 1 "") < 1) then
      (c, [.replyParts "431" ["No nickname given"]], true)
    else
      let nickname := lowerStr (dropColon (cols.getD 1 ""))
      if nickInUse st nickname then
        (c, [.replyParts "433" ["*", nickname, "Nickname is already in use"]], true)
      else if !reNicknameMatch nickname then
        (c, [.replyParts "432" ["*", cols.getD 1 "", "Erroneous nickname"]], true)
      else ({ c with nickname := nickname }, [], false)
  | "USER" =>
    if cols.length == 1 then (c, [.notEnoughParams "USER"], true)
    else
      let args := goSplitN (cols.getD 1 "") ' ' 4
      if args.length < 4 then (c, [.notEnoughParams "USER"], true)
      else
        ({ c with username := args.getD 0 "",
                  realname := goTrimLeft (args.getD 3 "") ':' }, [], false)
  | _ => (c, [], false)

/-- Welcome replies on successful registration (lines 375-380). -/
def welcomeMsgs (env : Env) (st : DaemonState) : List ClientMsg :=
  [.replyNicknamed "001" ["Hi, welcome to IRC"],
   .replyNicknamed "002" ["Your host is " ++ env.hostname ++ ", running goircd " ++ env.version],
   .replyNicknamed "003" ["This server was created sometime"],
   .replyNicknamed "004" [env.hostname ++ " goircd o o"],
   sendLusers st] ++ sendMotd env

/-- The registration-completion check of `ClientRegister` (lines 351-382):
runs after the command switch, on every message from an unregistered
client once both nickname and username are set. -/
def registerCheck (env : Env) (st : DaemonState) (cid : Nat) : DaemonState × List Output :=
  match st.clientHeap.lookup cid with
  | none => (st, [])
  | some c =>
    if c.nickname != "*" && c.username != "" then
      if env.passwords != "" then
        match c.password with
        | none =>
          (putC st cid { c with closed := true },
           [.toClient cid (.replyParts "462" ["You may not register"])])
        | some pw =>
          match env.passwordsFile with
          | none => (st, [.fatal "Can no read passwords file"])
          | some contents =>
            match passEntriesCheck c.nickname pw (splitCh '\n' contents) with
            | .deny =>
              (putC st cid { c with closed := true },
               [.toClient cid (.replyParts "462" ["You may not register"])])
            | .panicked => (st, [.panicked "index out of range"])
            | .ok =>
              let st1 := putC st cid { c with registered := true }
              (st1, (welcomeMsgs env st1).map (Output.toClient cid))
      else
        let st1 := putC st cid { c with registered := true }
        (st1, (welcomeMsgs env st1).map (Output.toClient cid))
    else (st, [])

/-- `ClientRegister` (lines 309-383): the unregistered-client workflow. -/
def ClientRegister (env : Env) (st : DaemonState) (cid : Nat) (cmd : String)
    (cols : List String) : DaemonState × List Output :=
  match st.clientHeap.lookup cid with
  | none => (st, [])
  | some c =>
    let res := regSwitch st c cmd cols
    let st1 := putC st cid res.1
    let outs := res.2.1.map (Output.toClient cid)
    if res.2.2 then (st1, outs)
    else
      let chk := registerCheck env st1 cid
      (chk.1, outs ++ chk.2)

/-- `RoomRegister` (lines 387-395): create the room object and its sink,
store them in `rooms` and `roomSinks`.  Returns the fresh room id (the
pointer) and sink id; we let both be `nextId`. -/
def RoomRegister (st : DaemonState) (name : String) : DaemonState × Nat × Nat :=
  let rid := st.nextId
  let room : Room := { name := name }
  ({ st with rooms := insA st.rooms name rid,
             roomSinks := insA st.roomSinks rid rid,
             roomHeap := insA st.roomHeap rid room,
             nextId := st.nextId + 1 }, rid, rid)

/-- The `for roomExisting, roomSink = range roomSinks` search of
`HandlerJoin` (lines 420-428): find a sink whose room has this name.
Go map iteration order is unspecified; room names are unique in reachable
states, so taking the first structural match is faithful. -/
def findRS (heap : List (Nat × Room)) (name : String) :
    List (Nat × Nat) → Option (Nat × Room × Nat)
  | [] => none
  | (rid, sink) :: rest =>
    match heap.lookup rid with
    | some r => if r.name == name then some (rid, r, sink) else findRS heap name rest
    | none => findRS heap name rest

/-- The positionally paired key of the `n`-th channel name
(lines 414-419). -/
def joinKeyAt (keys : List String) (n : Nat) : String :=
  if decide (n < keys.length) && (keys.getD n "") != "" then keys.getD n "" else ""

/-- One iteration of the JOIN loop body (lines 409-440) for channel
`name` at position `n`. -/
def joinOne (st : DaemonState) (cid : Nat) (keys : List String) (n : Nat)
    (name : String) : DaemonState × List Output :=
  if !RoomNameValid name then (st, [.toClient cid (.noChannel name)])
  else
    let key := joinKeyAt keys n
    match findRS st.roomHeap name st.roomSinks with
    | some (_, r, sink) =>
      if r.key != "" && r.key != key then
        (st, [.toClient cid (.replyNicknamed "475" [name, "Cannot join channel (+k) - bad key"])])
      else (st, [.toRoom sink { client := some cid, eventType := .EventNew }])
    | none =>
      let reg := RoomRegister st name
      let st1 := reg.1
      let rid := reg.2.1
      let sink := reg.2.2
      if key != "" then
        match st1.roomHeap.lookup rid with
        | some r =>
          let r1 := { r with key := key }
          (putR st1 rid r1,
           [.stateSave r1.name r1.topic r1.key,
            .toRoom sink { client := some cid, eventType := .EventNew }])
        | none => (st1, [.toRoom sink { client := some cid, eventType := .EventNew }])
      else (st1, [.toRoom sink { client := some cid, eventType := .EventNew }])

def joinLoop (cid : Nat) (keys : List String) :
    DaemonState → Nat → List String → DaemonState × List Output
  | st, _, [] => (st, [])
  | st, n, name :: rest =>
    let one := joinOne st cid keys n name
    let more := joinLoop cid keys one.1 (n + 1) rest
    (more.1, one.2 ++ more.2)

/-- `HandlerJoin` (lines 397-441). -/
def HandlerJoin (st : DaemonState) (cid : Nat) (cmd : String) : DaemonState × List Output :=
  let args := splitCh ' ' cmd
  let rs := splitCh ',' (args.getD 0 "")
  let keys := if decide (args.length > 1) then splitCh ',' (args.getD 1 "") else []
  joinLoop cid keys st 0 rs

/-- `SendList` (lines 277-302). -/
def sendList (st : DaemonState) (cols : List String) : List ClientMsg :=
  let rs := sortStrings
    (if decide (cols.length > 1) && (cols.getD 1 "") != "" then
      splitCh ',' ((splitCh ' ' (cols.getD 1 "")).getD 0 "")
    else st.rooms.map Prod.fst)
  (rs.foldr (fun r acc =>
    (match st.rooms.lookup r with
     | some rid =>
       match st.roomHeap.lookup rid with
       | some room =>
         [ClientMsg.replyNicknamed "322" [r, toString room.members.length, room.topic]]
       | none => []
     | none => []) ++ acc) []) ++ [.replyNicknamed "323" ["End of /LIST"]]

/-- The nickname-keyed membership set built by ISON (lines 654-657):
all clients in the registry, registered or not. -/
def nickKnown (st : DaemonState) (n : String) : Bool :=
  st.clients.any (fun i =>
    match st.clientHeap.lookup i with
    | some c => c.nickname == n
    | none => false)

/-- The room subscriptions of a (lower-cased) nickname, as collected by
`SendWhois` (lines 263-271). -/
def whoisSubscriptions (st : DaemonState) (nickname : String) : List String :=
  sortStrings (st.rooms.foldr (fun p acc =>
    (match st.roomHeap.lookup p.2 with
     | some r =>
       (r.members.filter (fun m =>
         match st.clientHeap.lookup m with
         | some sc => sc.nickname == nickname
         | none => false)).map (fun _ => r.name)
     | none => []) ++ acc) [])

/-- The first client in the registry with the given (lower-cased)
nickname, as searched by `SendWhois` (lines 245-249) and the
PRIVMSG/NOTICE nickname loop (lines 590-599). -/
def findByNick (st : DaemonState) (nickname : String) : Option (Nat × Client) :=
  st.clients.findSome? (fun i =>
    match st.clientHeap.lookup i with
    | some c => if c.nickname == nickname then some (i, c) else none
    | none => none)

/-- The inner body of `SendWhois` (lines 236-275) for one queried name. -/
def whoisOne (env : Env) (st : DaemonState) (nicknameRaw : String) : List ClientMsg :=
  let nickname := lowerStr nicknameRaw
  match st.clients.findSome? (fun i =>
    match st.clientHeap.lookup i with
    | some c => if lowerStr c.nickname == nickname then some c else none
    | none => none) with
  | none => [.noNickChan nickname]
  | some c =>
    [.replyNicknamed "311" [c.nickname, c.username, c.remoteHost, "*", c.realname],
     .replyNicknamed "312" [c.nickname, env.hostname, env.hostname]] ++
    (match c.away with
     | some a => [ClientMsg.replyNicknamed "301" [c.nickname, a]]
     | none => []) ++
    [.replyNicknamed "319" [c.nickname, joinStr " " (whoisSubscriptions st nickname)],
     .replyNicknamed "318" [c.nickname, "End of /WHOIS list"]]

def sendWhois (env : Env) (st : DaemonState) (nicknames : List String) : List ClientMsg :=
  nicknames.foldr (fun n acc => whoisOne env st n ++ acc) []

/-- Send an event on a room's sink (`roomSinks[r] <- ev`); a missing sink
is Go's zero-value nil channel, on which a send blocks forever. -/
def sendToRoom (st : DaemonState) (rid : Nat) (ev : ClientEvent) : List Output :=
  match st.roomSinks.lookup rid with
  | some s => [.toRoom s ev]
  | none => [.nilChanSend ev]

/-- The NOTICE/PRIVMSG case of the command switch (lines 578-611).
`cmd` is already upper-cased. -/
def handleMsgCmd (st : DaemonState) (cid : Nat) (c : Client) (cmd : String)
    (cols : List String) : DaemonState × List Output × Bool :=
  if cols.length == 1 then
    (st, [.toClient cid (.replyNicknamed "411" ["No recipient given (" ++ cmd ++ ")"])], true)
  else
    let cols2 := goSplitN (cols.getD 1 "") ' ' 2
    if cols2.length == 1 then
      (st, [.toClient cid (.replyNicknamed "412" ["No text to send"])], true)
    else
      let target := lowerStr (cols2.getD 0 "")
      match findByNick st target with
      | some (tid, tc) =>
        let msg := ":" ++ clientStr c ++ " " ++ cmd ++ " " ++ tc.nickname ++ " " ++ cols2.getD 1 ""
        (st,
         [Output.toClient tid (.msgLine msg)] ++
           (match tc.away with
            | some a => [Output.toClient cid (.replyNicknamed "301" [tc.nickname, a])]
            | none => []),
         true)
      | none =>
        match st.rooms.lookup target with
        | some rid =>
          (st, sendToRoom st rid
            { client := some cid, eventType := .EventMsg,
              text := cmd ++ " " ++ goTrimLeft (cols2.getD 1 "") ':' }, false)
        | none => (st, [.toClient cid (.noNickChan target)], false)

/-- The registered-client command switch of `Processor` (lines 509-675).
The trailing `Bool` is true when the Go code leaves the iteration with
`continue`, skipping the `recvTimestamp` update at lines 677-679. -/
def handleCmd (env : Env) (st : DaemonState) (cid : Nat) (c : Client) (cmd : String)
    (cols : List String) : DaemonState × List Output × Bool :=
  match cmd with
  | "AWAY" =>
    if cols.length == 1 then
      (putC st cid { c with away := none },
       [.toClient cid (.replyNicknamed "305" ["You are no longer marked as being away"])], true)
    else
      (putC st cid { c with away := some (cols.getD 1 "") },
       [.toClient cid (.replyNicknamed "306" ["You have been marked as being away"])], false)
  | "JOIN" =>
    if cols.length == 1 || decide (strLen (cols.getD 1 "") < 1) then
      (st, [.toClient cid (.notEnoughParams "JOIN")], true)
    else
      let hj := HandlerJoin st cid (cols.getD 1 "")
      (hj.1, hj.2, false)
  | "LIST" =>
    (st, (sendList st cols).map (Output.toClient cid), false)
  | "LUSERS" =>
    (st, [.toClient cid (sendLusers st)], false)
  | "MODE" =>
    if cols.length == 1 || decide (strLen (cols.getD 1 "") < 1) then
      (st, [.toClient cid (.notEnoughParams "MODE")], true)
    else
      let cols2 := goSplitN (cols.getD 1 "") ' ' 2
      if cols2.getD 0 "" == c.username then
        if cols2.length == 1 then
          (st, [.toClient cid (.msgLine ("221 " ++ c.nickname ++ " +"))], true)
        else
          (st, [.toClient cid (.replyNicknamed "501" ["Unknown MODE flag"])], true)
      else
        let room := cols2.getD 0 ""
        match st.rooms.lookup room with
        | none => (st, [.toClient cid (.noChannel room)], true)
        | some rid =>
          if cols2.length == 1 then
            (st, sendToRoom st rid { client := some cid, eventType := .EventMode }, false)
          else
            (st, sendToRoom st rid
              { client := some cid, eventType := .EventMode, text := cols2.getD 1 "" }, false)
  | "MOTD" =>
    (st, (sendMotd env).map (Output.toClient cid), false)
  | "PART" =>
    if cols.length == 1 || decide (strLen (cols.getD 1 "") < 1) then
      (st, [.toClient cid (.notEnoughParams "PART")], true)
    else
      let rs := (splitCh ' ' (cols.getD 1 "")).getD 0 ""
      (st,
       (splitCh ',' rs).foldr (fun room acc =>
         (match st.rooms.lookup room with
          | some rid => sendToRoom st rid { client := some cid, eventType := .EventDel }
          | none => [Output.toClient cid (.noChannel room)]) ++ acc) [],
       false)
  | "PING" =>
    if cols.length == 1 then
      (st, [.toClient cid (.replyNicknamed "409" ["No origin specified"])], true)
    else
      (st, [.toClient cid (.reply ("PONG " ++ env.hostname ++ " :" ++ cols.getD 1 ""))], false)
  | "PONG" => (st, [], true)
  | "NOTICE" =>
    handleMsgCmd st cid c cmd cols
  | "PRIVMSG" =>
    handleMsgCmd st cid c cmd cols
  | "TOPIC" =>
    if cols.length == 1 then
      (st, [.toClient cid (.notEnoughParams "TOPIC")], true)
    else
      let cols2 := goSplitN (cols.getD 1 "") ' ' 2
      match st.rooms.lookup (cols2.getD 0 "") with
      | none => (st, [.toClient cid (.noChannel (cols2.getD 0 ""))], true)
      | some rid =>
        let change := if decide (cols2.length > 1) then cols2.getD 1 "" else ""
        (st, sendToRoom st rid
          { client := some cid, eventType := .EventTopic, text := change }, false)
  | "WHO" =>
    if cols.length == 1 || decide (strLen (cols.getD 1 "") < 1) then
      (st, [.toClient cid (.notEnoughParams "WHO")], true)
    else
      let room := (splitCh ' ' (cols.getD 1 "")).getD 0 ""
      match st.rooms.lookup room with
      | some rid =>
        (st, sendToRoom st rid { client := some cid, eventType := .EventWho }, false)
      | none => (st, [.toClient cid (.noChannel room)], false)
  | "WHOIS" =>
    if cols.length == 1 || decide (strLen (cols.getD 1 "") < 1) then
      (st, [.toClient cid (.notEnoughParams "WHOIS")], true)
    else
      let colsW := splitCh ' ' (cols.getD 1 "")
      let nicknames := splitCh ',' (colsW.getD (colsW.length - 1) "")
      (st, (sendWhois env st nicknames).map (Output.toClient cid), false)
  | "ISON" =>
    if cols.length == 1 || decide (strLen (cols.getD 1 "") < 1) then
      (st, [.toClient cid (.notEnoughParams "ISON")], true)
    else
      let nicksExists := ((splitCh ' ' (cols.getD 1 "")).filter (nickKnown st))
      (st, [.toClient cid (.replyNicknamed "303" [joinStr " " nicksExists])], false)
  | "VERSION" =>
    let debug := if env.verbose then "debug" else ""
    (st, [.toClient cid
      (.replyNicknamed "351" [env.version ++ "." ++ debug ++ " " ++ env.hostname ++ " :"])], false)
  | _ =>
    (st, [.toClient cid (.replyNicknamed "421" [cmd, "Unknown command"])], false)

/-- The per-client liveness check of `EventTick` (lines 456-471). -/
def tickClient (env : Env) (now : Nat) (c : Client) : Client × List ClientMsg :=
  if c.recvTimestamp + PingTimeout < now then ({ c with closed := true }, [])
  else if c.sendTimestamp + PingThreshold < now then
    if c.registered then
      ({ c with sendTimestamp := now }, [.msgLine ("PING :" ++ env.hostname)])
    else ({ c with closed := true }, [])
  else (c, [])

/-- Apply `tickClient` to every registered client.  The Go code iterates
the `clients` map in unspecified order and mutates each `*Client`; we walk
the heap, touching exactly the heap cells whose id is in the registry. -/
def tickHeap (env : Env) (now : Nat) (registry : List Nat) :
    List (Nat × Client) → List (Nat × Client) × List Output
  | [] => ([], [])
  | (i, c) :: rest =>
    let more := tickHeap env now registry rest
    if registry.contains i then
      let tc := tickClient env now c
      ((i, tc.1) :: more.1, tc.2.map (Output.toClient i) ++ more.2)
    else ((i, c) :: more.1, more.2)

/-- Does the room behind `rid` have zero members (`len(r.members) == 0`)?
A dangling id never occurs in reachable states; we treat it as
non-empty so that nothing is collected for it. -/
def roomEmptyB (heap : List (Nat × Room)) (rid : Nat) : Bool :=
  match heap.lookup rid with
  | some r => r.members.isEmpty
  | none => false

/-- The empty-room garbage collection of `EventTick` (lines 472-479). -/
def tickRooms (env : Env) (st : DaemonState) : DaemonState × List Output :=
  if env.statedir == "" then
    let removed := (st.rooms.filter (fun p => roomEmptyB st.roomHeap p.2)).map Prod.snd
    ({ st with rooms := st.rooms.filter (fun p => !roomEmptyB st.roomHeap p.2),
               roomSinks := st.roomSinks.filter (fun p => !removed.contains p.1) },
     removed.foldr (fun rid acc =>
       (match st.roomSinks.lookup rid with
        | some s => [Output.closeSink s]
        | none => []) ++ acc) [])
  else (st, [])

/-- The whole `EventTick` case (lines 455-479). -/
def tickState (env : Env) (st : DaemonState) (now : Nat) : DaemonState × List Output :=
  let th := tickHeap env now st.clients st.clientHeap
  let tr := tickRooms env { st with clientHeap := th.1 }
  (tr.1, th.2 ++ tr.2)

/-- The event dispatch switch of `Processor` (lines 454-676).  The
trailing `Bool` records whether the iteration ended in `continue`,
which skips the `recvTimestamp` update of lines 677-679. -/
def dispatchEvent (env : Env) (st : DaemonState) (ev : ClientEvent) (now : Nat) :
    DaemonState × List Output × Bool :=
  match ev.eventType with
  | .EventTick =>
    let t := tickState env st now
    (t.1, t.2, false)
  | .EventTerm =>
    (st, st.roomSinks.map (fun p => Output.toRoom p.2 { eventType := .EventTerm }) ++
         [.closedFinished], false)
  | .EventNew =>
    match ev.client with
    | some cid =>
      ({ st with clients := if st.clients.contains cid then st.clients else cid :: st.clients },
       [], false)
    | none => (st, [], false)
  | .EventDel =>
    match ev.client with
    | some cid =>
      ({ st with clients := st.clients.filter (fun i => i != cid) },
       st.roomSinks.map (fun p => Output.toRoom p.2 ev), false)
    | none => (st, st.roomSinks.map (fun p => Output.toRoom p.2 ev), false)
  | .EventMsg =>
    let cols := goSplitN ev.text ' ' 2
    let cmd := upperStr (cols.getD 0 "")
    match ev.client with
    | none => (st, [.panicked "nil client"], true)
    | some cid =>
      match st.clientHeap.lookup cid with
      | none => (st, [], true)
      | some c =>
        if cmd == "QUIT" then (putC st cid { c with closed := true }, [], true)
        else if !c.registered then
          let cr := ClientRegister env st cid cmd cols
          (cr.1, cr.2, true)
        else handleCmd env st cid c cmd cols
  | _ => (st, [], false)

/-- One iteration of the `for event := range events` loop of `Processor`
(lines 451-680): dispatch, then the `recvTimestamp` update of lines
677-679 unless the iteration was left with `continue`. -/
def processEvent (env : Env) (st : DaemonState) (ev : ClientEvent) (now : Nat) :
    DaemonState × List Output :=
  let d := dispatchEvent env st ev now
  if d.2.2 then (d.1, d.2.1)
  else
    match ev.client with
    | some cid =>
      match d.1.clientHeap.lookup cid with
      | some c => (putC d.1 cid { c with recvTimestamp := now }, d.2.1)
      | none => (d.1, d.2.1)
    | none => (d.1, d.2.1)

/-- Loading one state file at startup (`Run`, lines 100-114).  The input
is the file's base name (the glob `#*` guarantees it starts with `#`)
paired with the result of reading it (`none` = read error, which is
`log.Fatalf`). -/
def loadOneState (st : DaemonState) (f : String × Option String) : DaemonState × List Output :=
  match f.2 with
  | none => (st, [.fatal "Can not read state"])
  | some buf =>
    let reg := RoomRegister st f.1
    let st1 := reg.1
    let rid := reg.2.1
    let contents := splitCh '\n' buf
    if contents.length < 2 then (st1, [])
    else
      match st1.roomHeap.lookup rid with
      | some r =>
        (putR st1 rid { r with topic := contents.getD 0 "", key := contents.getD 1 "" }, [])
      | none => (st1, [])

/-- The whole startup scan (`Run`, lines 96-117); `log.Fatalf` aborts, so
a read error stops the fold. -/
def loadStates (st : DaemonState) : List (String × Option String) → DaemonState × List Output
  | [] => (st, [])
  | f :: rest =>
    match f.2 with
    | none => (st, [.fatal "Can not read state"])
    | some _ =>
      let one := loadOneState st f
      let more := loadStates one.1 rest
      (more.1, one.2 ++ more.2)

/-- The first field of a password entry `nick:password`. -/
def entryNick (e : String) : String := (splitCh ':' e).getD 0 ""

/-- The second field of a password entry `nick:password`. -/
def entryPass (e : String) : String := (splitCh ':' e).getD 1 ""

/-- A password entry that has at least the two `nick:password` fields. -/
def entryWellFormed (e : String) : Bool := decide (2 ≤ (splitCh ':' e).length)

/-- The `rooms`/`roomSinks` correspondence: every registered room's
pointer has an event channel. -/
def roomsSinksSynced (st : DaemonState) : Bool :=
  st.rooms.all (fun p => (st.roomSinks.lookup p.2).isSome)

/-- `ClientEvent{eventType: EventTick}` as produced by the ticker. -/
def tickEv : ClientEvent := { eventType := .EventTick }

/- Concrete fixtures for witnesses and counterexamples. -/

def envPw : Env :=
  { passwords := "/etc/goircd/passwords", passwordsFile := some "bob:secret",
    motdIsNil := true }

def envPwErr : Env :=
  { passwords := "/etc/goircd/passwords", passwordsFile := none, motdIsNil := true }

def bobFailed : Client := { nickname := "bob", username := "u", password := some "wrong" }

def stBob : DaemonState := { clientHeap := [(0, bobFailed)], clients := [0] }

def bobFresh : Client := { password := some "wrong" }

def stBobFresh : DaemonState := { clientHeap := [(0, bobFresh)], clients := [0] }

def bobNoPass : Client := { nickname := "bob", username := "u" }

def stBobNoPass : DaemonState := { clientHeap := [(0, bobNoPass)], clients := [0] }

def bobGoodPass : Client := { nickname := "bob", username := "u", password := some "secret" }

def stBobGood : DaemonState := { clientHeap := [(0, bobGoodPass)], clients := [0] }

def aliceReg : Client :=
  { nickname := "alice", username := "u", registered := true, recvTimestamp := 5 }

def stAlice : DaemonState := { clientHeap := [(0, aliceReg)], clients := [0] }

def bobHalf : Client := { nickname := "bob" }

def stIsonW : DaemonState :=
  { clientHeap := [(0, aliceReg), (1, bobHalf)], clients := [0, 1] }

def keyedRoom : Room := { name := "#r", key := "K" }

def stKeyed : DaemonState :=
  { rooms := [("#r", 3)], roomSinks := [(3, 3)], roomHeap := [(3, keyedRoom)], nextId := 4 }

def stRooms : DaemonState :=
  { rooms := [("#e", 1), ("#f", 2)], roomSinks := [(1, 1), (2, 2)],
    roomHeap := [(1, { name := "#e" }), (2, { name := "#f", members := [9] })], nextId := 3 }

def stUpper : DaemonState :=
  { clientHeap := [(0, aliceReg)], clients := [0], rooms := [("#Big", 5)],
    roomSinks := [(5, 5)], roomHeap := [(5, { name := "#Big" })], nextId := 6 }

def stTwin : DaemonState :=
  { clientHeap := [(0, aliceReg)], clients := [0],
    rooms := [("#Big", 5), ("#big", 7)], roomSinks := [(5, 5), (7, 7)],
    roomHeap := [(5, { name := "#Big" }), (7, { name := "#big" })], nextId := 8 }

def staleClient : Client := { nickname := "a", username := "u", registered := true }

def stStale : DaemonState := { clientHeap := [(0, staleClient)], clients := [0] }

def envSD : Env := { statedir := "/var/lib/goircd" }

section AssocLemmas

variable {κ α : Type} [BEq κ] [LawfulBEq κ]

theorem lookup_filter_of_all (P : κ × α → Bool) (k : κ) :
    ∀ l : List (κ × α), (∀ p ∈ l, p.1 = k → P p = true) →
      (l.filter P).lookup k = l.lookup k
  | [], _ => rfl
  | (k', v) :: rest, h => by
    by_cases hk : k' = k
    · subst hk
      have hP : P (k', v) = true := h (k', v) (List.mem_cons_self _ _) rfl
      simp only [List.filter_cons, hP, if_true]
      simp [List.lookup]
    · have hbe : (k == k') = false := beq_false_of_ne (fun he => hk he.symm)
      have ih := lookup_filter_of_all P k rest
        (fun p hp hpk => h p (List.mem_cons_of_mem _ hp) hpk)
      cases hP : P (k', v) with
      | true => simp [List.filter_cons, hP, List.lookup, hbe, ih]
      | false => simp [List.filter_cons, hP, List.lookup, hbe, ih]

theorem lookup_filter_of_none (P : κ × α → Bool) (k : κ) :
    ∀ l : List (κ × α), (∀ p ∈ l, p.1 = k → P p = false) →
      (l.filter P).lookup k = none
  | [], _ => rfl
  | (k', v) :: rest, h => by
    have ih := lookup_filter_of_none P k rest
      (fun p hp hpk => h p (List.mem_cons_of_mem _ hp) hpk)
    by_cases hk : k' = k
    · subst hk
      have hP : P (k', v) = false := h (k', v) (List.mem_cons_self _ _) rfl
      simp [List.filter_cons, hP, ih]
    · have hbe : (k == k') = false := beq_false_of_ne (fun he => hk he.symm)
      cases hP : P (k', v) with
      | true => simp [List.filter_cons, hP, List.lookup, hbe, ih]
      | false => simp [List.filter_cons, hP, ih]

theorem lookup_insA_self (l : List (κ × α)) (k : κ) (v : α) :
    (insA l k v).lookup k = some v := by
  simp [insA, List.lookup]

theorem lookup_insA_ne (l : List (κ × α)) (k k' : κ) (v : α) (h : k' ≠ k) :
    (insA l k v).lookup k' = l.lookup k' := by
  have hbe : (k' == k) = false := beq_false_of_ne h
  simp only [insA, List.lookup, hbe]
  exact lookup_filter_of_all _ _ l
    (fun p _ hpk => by simp [hpk, bne, beq_false_of_ne h])

theorem mem_of_lookup_eq_some {l : List (κ × α)} {k : κ} {v : α}
    (h : l.lookup k = some v) : (k, v) ∈ l := by
  induction l with
  | nil => simp [List.lookup] at h
  | cons p rest ih =>
    obtain ⟨k', v'⟩ := p
    by_cases hk : k == k'
    · have hv : some v' = some v := by simpa [List.lookup, hk] using h
      have hkk : k = k' := eq_of_beq hk
      subst hkk
      cases hv
      exact List.mem_cons_self _ _
    · have hbe : (k == k') = false := by simpa using hk
      have hr := by simpa [List.lookup, hbe] using h
      exact List.mem_cons_of_mem _ (ih hr)

end AssocLemmas

theorem joinKeyAt_single (k : String) : joinKeyAt [k] 0 = k := by
  by_cases h : k = ""
  · subst h; simp [joinKeyAt]
  · simp [joinKeyAt, bne, beq_false_of_ne h]

theorem joinKeyAt_nil : joinKeyAt [] 0 = "" := by
  simp [joinKeyAt]

/-- **C1**: a JOIN naming an existing room whose key `K` is non-empty is
denied with numeric 475 and forwards no `EventNew` when the positionally
paired supplied key (empty when absent) differs from `K`, and forwards
`EventNew` to the room's sink when it equals `K`. -/
theorem join_existing_keyed_room
    (st : DaemonState) (cid : Nat) (cmd name keyArg : String)
    (rid sink : Nat) (r : Room)
    (hcmd : splitCh ' ' cmd = [name, keyArg])
    (hname : splitCh ',' name = [name])
    (hkeyArg : splitCh ',' keyArg = [keyArg])
    (hvalid : RoomNameValid name = true)
    (hfind : findRS st.roomHeap name st.roomSinks = some (rid, r, sink))
    (hk : r.key ≠ "") :
    (keyArg ≠ r.key →
      HandlerJoin st cid cmd =
        (st, [.toClient cid (.replyNicknamed "475"
          [name, "Cannot join channel (+k) - bad key"])])) ∧
    (keyArg = r.key →
      HandlerJoin st cid cmd =
        (st, [.toRoom sink { client := some cid, eventType := .EventNew }])) ∧
    (∀ cmd0, splitCh ' ' cmd0 = [name] →
      HandlerJoin st cid cmd0 =
        (st, [.toClient cid (.replyNicknamed "475"
          [name, "Cannot join channel (+k) - bad key"])])) := by
  refine ⟨?_, ?_, ?_⟩
  · intro hne
    have hb1 : (r.key != "") = true := by simp [bne, beq_false_of_ne hk]
    have hb2 : (r.key != keyArg) = true := by
      simp [bne, beq_false_of_ne (fun he => hne he.symm)]
    simp [HandlerJoin, hcmd, hname, hkeyArg, joinLoop, joinOne, hvalid,
          joinKeyAt_single, hfind, hb1, hb2]
  · intro heq
    subst heq
    simp [HandlerJoin, hcmd, hname, hkeyArg, joinLoop, joinOne, hvalid,
          joinKeyAt_single, hfind]
  · intro cmd0 hcmd0
    have hb1 : (r.key != "") = true := by simp [bne, beq_false_of_ne hk]
    simp [HandlerJoin, hcmd0, hname, joinLoop, joinOne, hvalid,
          joinKeyAt_nil, hfind, hb1]

/-- Witness for `join_existing_keyed_room` on a concrete keyed room. -/
theorem join_existing_keyed_room_witness :
    HandlerJoin stKeyed 0 "#r bad" =
      (stKeyed, [.toClient 0 (.replyNicknamed "475"
        ["#r", "Cannot join channel (+k) - bad key"])]) ∧
    HandlerJoin stKeyed 0 "#r K" =
      (stKeyed, [.toRoom 3 { client := some 0, eventType := .EventNew }]) ∧
    HandlerJoin stKeyed 0 "#r" =
      (stKeyed, [.toClient 0 (.replyNicknamed "475"
        ["#r", "Cannot join channel (+k) - bad key"])]) :=
  ⟨(join_existing_keyed_room stKeyed 0 "#r bad" "#r" "bad" 3 3 keyedRoom (by decide)
      (by decide) (by decide) (by decide) (by decide) (by decide)).1 (by decide),
   (join_existing_keyed_room stKeyed 0 "#r K" "#r" "K" 3 3 keyedRoom (by decide)
      (by decide) (by decide) (by decide) (by decide) (by decide)).2.1 rfl,
   (join_existing_keyed_room stKeyed 0 "#r " "#r" "" 3 3 keyedRoom (by decide)
      (by decide) (by decide) (by decide) (by decide) (by decide)).2.2 "#r" (by decide)⟩

theorem regSwitch_default (st : DaemonState) (c : Client) (cmd : String) (cols : List String)
    (h1 : cmd ≠ "PASS") (h2 : cmd ≠ "NICK") (h3 : cmd ≠ "USER") :
    regSwitch st c cmd cols = (c, [], false) := by
  unfold regSwitch
  split <;> simp_all

/-- **C2** (amended): a command other than PASS/NICK/USER/QUIT from an
unregistered client produces no reply, provided the client has not yet
completed both NICK and USER (nickname still `*` or username still
empty).  (When both are set and a configured password check failed, the
registration check re-runs on any command and can emit 462 again.) -/
theorem unregistered_commands_silent
    (env : Env) (st : DaemonState) (ev : ClientEvent) (now : Nat)
    (cid : Nat) (c : Client)
    (hev : ev.eventType = .EventMsg)
    (hcid : ev.client = some cid)
    (hc : st.clientHeap.lookup cid = some c)
    (hreg : c.registered = false)
    (hcmd : ∀ x ∈ ["PASS", "NICK", "USER", "QUIT"],
      upperStr ((goSplitN ev.text ' ' 2).getD 0 "") ≠ x)
    (hstate : c.nickname = "*" ∨ c.username = "") :
    (processEvent env st ev now).2 = [] := by
  obtain ⟨cl, et, tx⟩ := ev
  simp only at hev hcid hcmd
  subst hev
  subst hcid
  have hq : (upperStr ((goSplitN tx ' ' 2).getD 0 "") == "QUIT") = false :=
    beq_false_of_ne (hcmd "QUIT" (by simp))
  have hcr : (ClientRegister env st cid (upperStr ((goSplitN tx ' ' 2).getD 0 ""))
      (goSplitN tx ' ' 2)).2 = [] := by
    simp only [ClientRegister, hc]
    rw [regSwitch_default st c _ _ (hcmd "PASS" (by simp)) (hcmd "NICK" (by simp))
      (hcmd "USER" (by simp))]
    have hguard : (c.nickname != "*" && c.username != "") = false := by
      rcases hstate with h | h <;> simp [h]
    simp [registerCheck, putC, lookup_insA_self, hguard]
  simp only [processEvent, dispatchEvent, hc, hq, Bool.false_eq_true, if_false, hreg,
    Bool.not_false, if_true]
  exact hcr

/-- Witness for `unregistered_commands_silent`: LIST from a fresh
unregistered client draws no reply. -/
theorem unregistered_commands_silent_witness :
    (processEvent envPw stBobFresh
      { client := some 0, eventType := .EventMsg, text := "LIST" } 3).2 = [] :=
  unregistered_commands_silent envPw stBobFresh
    { client := some 0, eventType := .EventMsg, text := "LIST" } 3 0 bobFresh rfl rfl
    (by decide) rfl (by decide) (Or.inl rfl)

/-- **C2** counterexample: with a passwords file configured, a client
whose registration attempt failed the password check (so `registered` is
still false, nickname and username set) receives numeric 462 for the
unknown command `FOO`, so the command is not silently dropped. -/
theorem unregistered_foo_replies_462 :
    bobFailed.registered = false ∧
    (processEvent envPw stBob
      { client := some 0, eventType := .EventMsg, text := "FOO" } 7).2
      = [.toClient 0 (.replyParts "462" ["You may not register"])] :=
  ⟨rfl, by decide⟩

theorem splitChAux_ne_nil (sep : Char) : ∀ l acc, splitChAux sep l acc ≠ []
  | [], acc => by simp [splitChAux]
  | d :: rest, acc => by
    unfold splitChAux
    by_cases hd : d == sep
    · simp [hd]
    · simp only [hd, Bool.false_eq_true, if_false]
      exact splitChAux_ne_nil sep rest (d :: acc)

theorem splitCh_ne_nil (sep : Char) (s : String) : splitCh sep s ≠ [] :=
  splitChAux_ne_nil sep s.data []

/-- Scanning the password entries accepts when every entry for the nick
is well-formed and carries the client's password. -/
theorem passEntriesCheck_ok_of (nick pass : String) :
    ∀ entries : List String,
      (∀ e ∈ entries, e ≠ "" → entryNick e = nick →
        entryWellFormed e = true ∧ entryPass e = pass) →
      passEntriesCheck nick pass entries = .ok
  | [], _ => rfl
  | entry :: rest, h => by
    have ih := passEntriesCheck_ok_of nick pass rest
      (fun e a b c => h e (List.mem_cons_of_mem _ a) b c)
    by_cases he : entry = ""
    · subst he; simpa [passEntriesCheck] using ih
    · have hbe : (entry == "") = false := beq_false_of_ne he
      rcases hsp : splitCh ':' entry with _ | ⟨p0, tl⟩
      · exact absurd hsp (splitCh_ne_nil ':' entry)
      rcases tl with _ | ⟨p1, tl2⟩
      · by_cases hp0 : p0 = nick
        · have hwf := (h entry (List.mem_cons_self _ _) he (by simp [entryNick, hsp, hp0])).1
          rw [entryWellFormed, hsp] at hwf
          simp at hwf
        · simp [passEntriesCheck, hbe, hsp, beq_false_of_ne hp0, ih]
      · by_cases hp0 : p0 = nick
        · have hpp := (h entry (List.mem_cons_self _ _) he (by simp [entryNick, hsp, hp0])).2
          have hep : entryPass entry = p1 := by simp [entryPass, hsp]
          have hp1 : p1 = pass := by rw [← hep, hpp]
          simp [passEntriesCheck, hbe, hsp, hp0, hp1, ih]
        · simp [passEntriesCheck, hbe, hsp, beq_false_of_ne hp0, ih]

/-- Scanning the password entries denies when some entry names the nick
with a different password (entries for the nick being well-formed). -/
theorem passEntriesCheck_deny_of (nick pass : String) :
    ∀ entries : List String,
      (∀ e ∈ entries, e ≠ "" → entryNick e = nick → entryWellFormed e = true) →
      (∃ e ∈ entries, e ≠ "" ∧ entryNick e = nick ∧ entryPass e ≠ pass) →
      passEntriesCheck nick pass entries = .deny
  | [], _, hex => by simp at hex
  | entry :: rest, h, hex => by
    have hrest : (∃ e ∈ rest, e ≠ "" ∧ entryNick e = nick ∧ entryPass e ≠ pass) →
        passEntriesCheck nick pass rest = .deny :=
      passEntriesCheck_deny_of nick pass rest
        (fun e a b c => h e (List.mem_cons_of_mem _ a) b c)
    by_cases he : entry = ""
    · subst he
      have hx : ∃ e ∈ rest, e ≠ "" ∧ entryNick e = nick ∧ entryPass e ≠ pass := by
        rcases hex with ⟨e, hm, h1, h2, h3⟩
        rcases List.mem_cons.mp hm with rfl | hm2
        · exact absurd rfl h1
        · exact ⟨e, hm2, h1, h2, h3⟩
      simpa [passEntriesCheck] using hrest hx
    · have hbe : (entry == "") = false := beq_false_of_ne he
      rcases hsp : splitCh ':' entry with _ | ⟨p0, tl⟩
      · exact absurd hsp (splitCh_ne_nil ':' entry)
      rcases tl with _ | ⟨p1, tl2⟩
      · by_cases hp0 : p0 = nick
        · have hwf := h entry (List.mem_cons_self _ _) he (by simp [entryNick, hsp, hp0])
          rw [entryWellFormed, hsp] at hwf
          simp at hwf
        · have hx : ∃ e ∈ rest, e ≠ "" ∧ entryNick e = nick ∧ entryPass e ≠ pass := by
            rcases hex with ⟨e, hm, h1, h2, h3⟩
            rcases List.mem_cons.mp hm with rfl | hm2
            · rw [show entryNick e = p0 from by simp [entryNick, hsp]] at h2
              exact absurd h2 hp0
            · exact ⟨e, hm2, h1, h2, h3⟩
          simpa [passEntriesCheck, hbe, hsp, beq_false_of_ne hp0] using hrest hx
      · by_cases hp0 : p0 = nick
        · by_cases hp1 : p1 = pass
          · have hx : ∃ e ∈ rest, e ≠ "" ∧ entryNick e = nick ∧ entryPass e ≠ pass := by
              rcases hex with ⟨e, hm, h1, h2, h3⟩
              rcases List.mem_cons.mp hm with rfl | hm2
              · rw [show entryPass e = p1 from by simp [entryPass, hsp]] at h3
                exact absurd hp1 h3
              · exact ⟨e, hm2, h1, h2, h3⟩
            simpa [passEntriesCheck, hbe, hsp, hp0, hp1] using hrest hx
          · simp [passEntriesCheck, hbe, hsp, hp0, bne, beq_false_of_ne hp1]
        · have hx : ∃ e ∈ rest, e ≠ "" ∧ entryNick e = nick ∧ entryPass e ≠ pass := by
            rcases hex with ⟨e, hm, h1, h2, h3⟩
            rcases List.mem_cons.mp hm with rfl | hm2
            · rw [show entryNick e = p0 from by simp [entryNick, hsp]] at h2
              exact absurd h2 hp0
            · exact ⟨e, hm2, h1, h2, h3⟩
          simpa [passEntriesCheck, hbe, hsp, beq_false_of_ne hp0] using hrest hx

/-- **C3** (amended): at the registration check with a passwords file
configured: a missing PASS yields 462 and Close; an entry for the nick
with a different password yields 462 and Close; if every entry for the
nick matches, the client is registered; a read error of the passwords
file is fatal (`log.Fatalf` aborts the process) and the client is not
registered. -/
theorem registration_password_check
    (env : Env) (st : DaemonState) (cid : Nat) (c : Client)
    (hc : st.clientHeap.lookup cid = some c)
    (hn : c.nickname ≠ "*") (hu : c.username ≠ "")
    (hp : env.passwords ≠ "") :
    (c.password = none →
      registerCheck env st cid =
        (putC st cid { c with closed := true },
         [.toClient cid (.replyParts "462" ["You may not register"])])) ∧
    (∀ pw contents, c.password = some pw → env.passwordsFile = some contents →
      ((∀ e ∈ splitCh '\n' contents, e ≠ "" → entryNick e = c.nickname →
          entryWellFormed e = true) →
        (∃ e ∈ splitCh '\n' contents, e ≠ "" ∧ entryNick e = c.nickname ∧
          entryPass e ≠ pw) →
        registerCheck env st cid =
          (putC st cid { c with closed := true },
           [.toClient cid (.replyParts "462" ["You may not register"])])) ∧
      ((∀ e ∈ splitCh '\n' contents, e ≠ "" → entryNick e = c.nickname →
          entryWellFormed e = true ∧ entryPass e = pw) →
        (registerCheck env st cid).1.clientHeap.lookup cid =
          some { c with registered := true })) ∧
    (∀ pw, c.password = some pw → env.passwordsFile = none →
      registerCheck env st cid = (st, [.fatal "Can no read passwords file"])) := by
  have hguard : (c.nickname != "*" && c.username != "") = true := by
    simp [bne, beq_false_of_ne hn, beq_false_of_ne hu]
  have hpe : (env.passwords != "") = true := by
    simp [bne, beq_false_of_ne hp]
  refine ⟨?_, ?_, ?_⟩
  · intro hpw
    simp [registerCheck, hc, hguard, hpe, hpw]
  · intro pw contents hpw hfile
    constructor
    · intro hwf hex
      have hdeny := passEntriesCheck_deny_of c.nickname pw (splitCh '\n' contents) hwf hex
      simp [registerCheck, hc, hguard, hpe, hpw, hfile, hdeny]
    · intro hok
      have := passEntriesCheck_ok_of c.nickname pw (splitCh '\n' contents) hok
      simp [registerCheck, hc, hguard, hpe, hpw, hfile, this, putC, lookup_insA_self]
  · intro pw hpw hfile
    simp [registerCheck, hc, hguard, hpe, hpw, hfile]

/-- Witness for `registration_password_check` on concrete clients against
the passwords file `bob:secret`. -/
theorem registration_password_check_witness :
    registerCheck envPw stBobNoPass 0 =
      (putC stBobNoPass 0 { bobNoPass with closed := true },
       [.toClient 0 (.replyParts "462" ["You may not register"])]) ∧
    registerCheck envPw stBob 0 =
      (putC stBob 0 { bobFailed with closed := true },
       [.toClient 0 (.replyParts "462" ["You may not register"])]) ∧
    (registerCheck envPw stBobGood 0).1.clientHeap.lookup 0 =
      some { bobGoodPass with registered := true } ∧
    registerCheck envPwErr stBobGood 0 = (stBobGood, [.fatal "Can no read passwords file"]) :=
  ⟨(registration_password_check envPw stBobNoPass 0 bobNoPass rfl (by decide) (by decide)
      (by decide)).1 rfl,
   ((registration_password_check envPw stBob 0 bobFailed rfl (by decide) (by decide)
      (by decide)).2.1 "wrong" "bob:secret" rfl rfl).1 (by decide)
      ⟨"bob:secret", by decide, by decide, by decide, by decide⟩,
   ((registration_password_check envPw stBobGood 0 bobGoodPass rfl (by decide) (by decide)
      (by decide)).2.1 "secret" "bob:secret" rfl rfl).2 (by decide),
   (registration_password_check envPwErr stBobGood 0 bobGoodPass rfl (by decide) (by decide)
      (by decide)).2.2 "secret" rfl rfl⟩

/-- **C3** counterexample: a read error of the passwords file at
registration time is not treated as an empty file — the code calls
`log.Fatalf` (process abort) and the client stays unregistered, whereas
with an empty file the same client would have been registered. -/
theorem password_read_error_is_fatal :
    (registerCheck envPwErr stBobGood 0).2 = [.fatal "Can no read passwords file"] ∧
    ((registerCheck envPwErr stBobGood 0).1.clientHeap.lookup 0).map Client.registered
      = some false ∧
    ((registerCheck { envPwErr with passwordsFile := some "" } stBobGood 0).1.clientHeap.lookup
      0).map Client.registered = some true := by
  refine ⟨by decide, by decide, by decide⟩

theorem tickRooms_clientHeap (env : Env) (s : DaemonState) :
    (tickRooms env s).1.clientHeap = s.clientHeap := by
  unfold tickRooms
  split <;> rfl

theorem tickHeap_lookup (env : Env) (now : Nat) (registry : List Nat) :
    ∀ heap : List (Nat × Client), ∀ cid : Nat, ∀ c : Client, heap.lookup cid = some c →
      (tickHeap env now registry heap).1.lookup cid =
        some (if registry.contains cid then (tickClient env now c).1 else c)
  | [], cid, c, h => by simp [List.lookup] at h
  | (i, c') :: rest, cid, c, h => by
    unfold tickHeap
    by_cases hci : cid = i
    · subst hci
      have hcc : c' = c := by simpa [List.lookup] using h
      subst hcc
      cases hr : registry.contains cid with
      | true => simp only [hr, if_true]; simp [List.lookup]
      | false =>
        simp only [hr, Bool.false_eq_true, if_false]
        simp [List.lookup]
    · have hbe : (cid == i) = false := beq_false_of_ne hci
      have hrest : rest.lookup cid = some c := by simpa [List.lookup, hbe] using h
      have ih := tickHeap_lookup env now registry rest cid c hrest
      cases hr : registry.contains i with
      | true =>
        simp only [hr, if_true]
        simpa [List.lookup, hbe] using ih
      | false =>
        simp only [hr, Bool.false_eq_true, if_false]
        simpa [List.lookup, hbe] using ih

theorem tickHeap_out_notmem (env : Env) (now : Nat) (registry : List Nat) :
    ∀ heap : List (Nat × Client), ∀ cid : Nat, cid ∉ heap.map Prod.fst →
      ∀ m : ClientMsg, Output.toClient cid m ∉ (tickHeap env now registry heap).2
  | [], cid, _, m => by simp [tickHeap]
  | (i, c) :: rest, cid, h, m => by
    have h2 : cid ≠ i ∧ cid ∉ rest.map Prod.fst := by
      simpa [not_or] using h
    have ih := tickHeap_out_notmem env now registry rest cid h2.2 m
    unfold tickHeap
    cases hr : registry.contains i with
    | true =>
      simp only [hr, if_true, List.mem_append, not_or]
      refine ⟨?_, ih⟩
      intro hmem
      rcases List.mem_map.mp hmem with ⟨x, _, heq⟩
      exact h2.1 (by injection heq with h3 h4; exact h3.symm)
    | false =>
      simp only [hr, Bool.false_eq_true, if_false]
      exact ih

theorem tickHeap_out_mem (env : Env) (now : Nat) (registry : List Nat) :
    ∀ heap : List (Nat × Client), (heap.map Prod.fst).Nodup →
      ∀ cid : Nat, ∀ c : Client, heap.lookup cid = some c →
      ∀ m : ClientMsg,
        (Output.toClient cid m ∈ (tickHeap env now registry heap).2 ↔
          registry.contains cid = true ∧ m ∈ (tickClient env now c).2)
  | [], _, cid, c, h, m => by simp [List.lookup] at h
  | (i, c') :: rest, hnd, cid, c, h, m => by
    have hnd2 : i ∉ rest.map Prod.fst ∧ (rest.map Prod.fst).Nodup := by
      rw [List.map_cons] at hnd
      exact List.nodup_cons.mp hnd
    by_cases hci : cid = i
    · subst hci
      have hcc : c' = c := by simpa [List.lookup] using h
      subst hcc
      have hnot := tickHeap_out_notmem env now registry rest cid hnd2.1 m
      unfold tickHeap
      cases hr : registry.contains cid with
      | true =>
        simp only [hr, if_true, List.mem_append, true_and]
        constructor
        · rintro (hmem | hmem)
          · rcases List.mem_map.mp hmem with ⟨x, hx, heq⟩
            injection heq with h3 h4
            subst h4
            exact hx
          · exact absurd hmem hnot
        · intro hx
          exact Or.inl (List.mem_map.mpr ⟨m, hx, rfl⟩)
      | false =>
        simp only [hr, Bool.false_eq_true, if_false, false_and, iff_false]
        exact hnot
    · have hbe : (cid == i) = false := beq_false_of_ne hci
      have hrest : rest.lookup cid = some c := by simpa [List.lookup, hbe] using h
      have ih := tickHeap_out_mem env now registry rest hnd2.2 cid c hrest m
      unfold tickHeap
      cases hr : registry.contains i with
      | true =>
        simp only [hr, if_true, List.mem_append]
        rw [← ih]
        constructor
        · rintro (hmem | hmem)
          · rcases List.mem_map.mp hmem with ⟨x, _, heq⟩
            injection heq with h3 h4
            exact absurd h3.symm hci
          · exact hmem
        · exact Or.inr
      | false =>
        simp only [hr, Bool.false_eq_true, if_false]
        exact ih

theorem closeSink_foldr_shape (sinks : List (Nat × Nat)) :
    ∀ rids : List Nat, ∀ o ∈ rids.foldr (fun rid acc =>
      (match sinks.lookup rid with
       | some s => [Output.closeSink s]
       | none => []) ++ acc) [], ∃ sk, o = Output.closeSink sk
  | [], o, h => by simp at h
  | rid :: rest, o, h => by
    rw [List.foldr_cons] at h
    rcases List.mem_append.mp h with h1 | h2
    · cases hl : sinks.lookup rid with
      | some s =>
        rw [hl] at h1
        simp at h1
        exact ⟨s, h1⟩
      | none =>
        rw [hl] at h1
        simp at h1
    · exact closeSink_foldr_shape sinks rest o h2

theorem tickRooms_out_shape (env : Env) (s : DaemonState) :
    ∀ o ∈ (tickRooms env s).2, ∃ sk, o = Output.closeSink sk := by
  intro o h
  unfold tickRooms at h
  by_cases hs : env.statedir == ""
  · rw [if_pos hs] at h
    exact closeSink_foldr_shape s.roomSinks _ o h
  · rw [if_neg hs] at h
    simp at h

theorem tickClient_unreg_silent (env : Env) (now : Nat) (c : Client)
    (h : c.registered = false) : (tickClient env now c).2 = [] := by
  unfold tickClient
  repeat' split <;> simp_all

/-- **C4**: on each EventTick, a registry client silent for more than
PingTimeout (180 s) since `recvTimestamp` is closed; otherwise, past
PingThreshold (90 s) since `sendTimestamp`, a registered client is sent
`PING :<hostname>` with `sendTimestamp` set to the current time while an
unregistered client is closed; an unregistered client is never sent a
PING. -/
theorem tick_liveness
    (env : Env) (st : DaemonState) (now cid : Nat) (c : Client)
    (hnd : (st.clientHeap.map Prod.fst).Nodup)
    (hc : st.clientHeap.lookup cid = some c)
    (hm : st.clients.contains cid = true) :
    ((processEvent env st tickEv now).1.clientHeap.lookup cid =
        some (tickClient env now c).1) ∧
    (c.recvTimestamp + PingTimeout < now →
      tickClient env now c = ({ c with closed := true }, [])) ∧
    (¬ c.recvTimestamp + PingTimeout < now → c.sendTimestamp + PingThreshold < now →
      (c.registered = true →
        tickClient env now c =
          ({ c with sendTimestamp := now }, [.msgLine ("PING :" ++ env.hostname)]) ∧
        Output.toClient cid (.msgLine ("PING :" ++ env.hostname))
          ∈ (processEvent env st tickEv now).2) ∧
      (c.registered = false →
        tickClient env now c = ({ c with closed := true }, []))) ∧
    (¬ c.recvTimestamp + PingTimeout < now → ¬ c.sendTimestamp + PingThreshold < now →
      tickClient env now c = (c, [])) ∧
    (c.registered = false →
      ∀ line, Output.toClient cid (.msgLine line) ∉ (processEvent env st tickEv now).2) := by
  have hpe : processEvent env st tickEv now = tickState env st now := rfl
  have hheap : (tickState env st now).1.clientHeap =
      (tickHeap env now st.clients st.clientHeap).1 := by
    unfold tickState
    exact tickRooms_clientHeap env _
  have houts : (tickState env st now).2 =
      (tickHeap env now st.clients st.clientHeap).2 ++
      (tickRooms env { st with clientHeap := (tickHeap env now st.clients st.clientHeap).1 }).2 :=
    rfl
  refine ⟨?_, ?_, ?_, ?_, ?_⟩
  · rw [hpe, hheap, tickHeap_lookup env now st.clients st.clientHeap cid c hc, hm, if_pos rfl]
  · intro h1
    unfold tickClient
    rw [if_pos h1]
  · intro h1 h2
    constructor
    · intro hreg
      constructor
      · unfold tickClient
        rw [if_neg h1, if_pos h2, hreg, if_pos rfl]
      · rw [hpe, houts]
        apply List.mem_append_left
        apply (tickHeap_out_mem env now st.clients st.clientHeap hnd cid c hc _).mpr
        refine ⟨hm, ?_⟩
        unfold tickClient
        rw [if_neg h1, if_pos h2, hreg, if_pos rfl]
        simp
    · intro hreg
      unfold tickClient
      rw [if_neg h1, if_pos h2, hreg]
      simp
  · intro h1 h2
    unfold tickClient
    rw [if_neg h1, if_neg h2]
  · intro hreg line hmem
    rw [hpe, houts] at hmem
    rcases List.mem_append.mp hmem with hmem | hmem
    · have := (tickHeap_out_mem env now st.clients st.clientHeap hnd cid c hc _).mp hmem
      rw [tickClient_unreg_silent env now c hreg] at this
      simp at this
    · rcases tickRooms_out_shape env _ _ hmem with ⟨sk, hsk⟩
      cases hsk

/-- Witness for `tick_liveness` on a concrete stale registered client at
`now = 100` (idle beyond the 90 s threshold, within the 180 s timeout). -/
theorem tick_liveness_witness :
    (processEvent { } stStale tickEv 100).1.clientHeap.lookup 0 =
      some (tickClient { } 100 staleClient).1 ∧
    tickClient { } 100 staleClient =
      ({ staleClient with sendTimestamp := 100 }, [.msgLine ("PING :" ++ Env.hostname { })]) ∧
    Output.toClient 0 (.msgLine ("PING :" ++ Env.hostname { }))
      ∈ (processEvent { } stStale tickEv 100).2 :=
  ⟨(tick_liveness { } stStale 100 0 staleClient (by decide) (by decide) (by decide)).1,
   (((tick_liveness { } stStale 100 0 staleClient (by decide) (by decide)
      (by decide)).2.2.1 (by decide) (by decide)).1 rfl).1,
   (((tick_liveness { } stStale 100 0 staleClient (by decide) (by decide)
      (by decide)).2.2.1 (by decide) (by decide)).1 rfl).2⟩

theorem regSwitch_recv (st : DaemonState) (c : Client) (cmd : String) (cols : List String) :
    ((regSwitch st c cmd cols).1).recvTimestamp = c.recvTimestamp := by
  unfold regSwitch
  repeat' first
    | split
    | dsimp only

theorem registerCheck_recv (env : Env) (st : DaemonState) (cid : Nat) (c : Client)
    (hc : st.clientHeap.lookup cid = some c) :
    ∃ c', (registerCheck env st cid).1.clientHeap.lookup cid = some c' ∧
      c'.recvTimestamp = c.recvTimestamp := by
  simp only [registerCheck, hc]
  repeat' split
  all_goals first
    | exact ⟨c, hc, rfl⟩
    | exact ⟨_, lookup_insA_self _ _ _, rfl⟩

theorem ClientRegister_recv (env : Env) (st : DaemonState) (cid : Nat) (cmd : String)
    (cols : List String) (c : Client) (hc : st.clientHeap.lookup cid = some c) :
    ∃ c', (ClientRegister env st cid cmd cols).1.clientHeap.lookup cid = some c' ∧
      c'.recvTimestamp = c.recvTimestamp := by
  have hput : (putC st cid (regSwitch st c cmd cols).1).clientHeap.lookup cid =
      some (regSwitch st c cmd cols).1 := lookup_insA_self _ _ _
  simp only [ClientRegister, hc]
  split
  · exact ⟨_, hput, regSwitch_recv st c cmd cols⟩
  · rcases registerCheck_recv env (putC st cid (regSwitch st c cmd cols).1) cid _ hput with
      ⟨c', hl, hr⟩
    exact ⟨c', hl, by rw [hr, regSwitch_recv]⟩

/-- **C5** (amended): the daemon Processor updates a non-nil client's
`recvTimestamp` to the iteration's `now` only on paths that do not leave
the loop iteration with `continue`; in particular a PONG from a
registered client leaves the whole state unchanged, a message from an
unregistered client leaves `recvTimestamp` unchanged, while e.g. an
EventNew does set `recvTimestamp` to `now`. -/
theorem recv_update_paths
    (env : Env) (st : DaemonState) (now cid : Nat) (c : Client)
    (hc : st.clientHeap.lookup cid = some c) :
    (∀ tx, upperStr ((goSplitN tx ' ' 2).getD 0 "") = "PONG" → c.registered = true →
      processEvent env st { client := some cid, eventType := .EventMsg, text := tx } now
        = (st, [])) ∧
    (∀ tx, upperStr ((goSplitN tx ' ' 2).getD 0 "") ≠ "QUIT" → c.registered = false →
      ∃ c', (processEvent env st { client := some cid, eventType := .EventMsg, text := tx }
          now).1.clientHeap.lookup cid = some c' ∧
        c'.recvTimestamp = c.recvTimestamp) ∧
    ((processEvent env st { client := some cid, eventType := .EventNew } now).1.clientHeap.lookup
        cid = some { c with recvTimestamp := now }) := by
  refine ⟨?_, ?_, ?_⟩
  · intro tx hcmd hreg
    have hq : (upperStr ((goSplitN tx ' ' 2).getD 0 "") == "QUIT") = false := by
      rw [hcmd]; decide
    simp only [processEvent, dispatchEvent, hc, hq, Bool.false_eq_true, if_false, hreg,
      Bool.not_true, hcmd]
    rfl
  · intro tx hcmd hreg
    have hq : (upperStr ((goSplitN tx ' ' 2).getD 0 "") == "QUIT") = false :=
      beq_false_of_ne hcmd
    simp only [processEvent, dispatchEvent, hc, hq, Bool.false_eq_true, if_false, hreg,
      Bool.not_false, if_true]
    exact ClientRegister_recv env st cid _ _ c hc
  · simp only [processEvent, dispatchEvent]
    have hc2 : ({ st with
        clients := if st.clients.contains cid then st.clients else cid :: st.clients
      } : DaemonState).clientHeap.lookup cid = some c := hc
    simp only [hc2]
    exact lookup_insA_self _ _ _

/-- Witness for `recv_update_paths` on concrete clients. -/
theorem recv_update_paths_witness :
    processEvent envPw stAlice { client := some 0, eventType := .EventMsg, text := "PONG" } 10
      = (stAlice, []) ∧
    (∃ c', (processEvent envPw stBobFresh
        { client := some 0, eventType := .EventMsg, text := "MOTD" } 9).1.clientHeap.lookup 0
        = some c' ∧ c'.recvTimestamp = bobFresh.recvTimestamp) ∧
    ((processEvent envPw stAlice { client := some 0, eventType := .EventNew }
        42).1.clientHeap.lookup 0 = some { aliceReg with recvTimestamp := 42 }) :=
  ⟨(recv_update_paths envPw stAlice 10 0 aliceReg rfl).1 "PONG" (by decide) rfl,
   (recv_update_paths envPw stBobFresh 9 0 bobFresh rfl).2.1 "MOTD" (by decide) rfl,
   (recv_update_paths envPw stAlice 42 0 aliceReg rfl).2.2⟩

/-- **C5** counterexample: a PONG from a registered client and a LIST
from an unregistered client both end their iteration with `continue`,
skipping the lines 677-679 update, so `recvTimestamp` is not refreshed
even though the events carry a non-nil client. -/
theorem pong_skips_recv_update :
    aliceReg.registered = true ∧
    (processEvent envPw stAlice
      { client := some 0, eventType := .EventMsg, text := "PONG" } 10) = (stAlice, []) ∧
    aliceReg.recvTimestamp = 5 ∧ (5 : Nat) ≠ 10 ∧
    ((processEvent envPw stBobFresh
        { client := some 0, eventType := .EventMsg, text := "LIST" } 3).1.clientHeap.lookup
      0).map Client.recvTimestamp = some 0 ∧ (0 : Nat) ≠ 3 :=
  ⟨rfl, by decide, rfl, by decide, by decide, by decide⟩

theorem strLen_ne_zero (s : String) (h : s ≠ "") : decide (strLen s < 1) = false := by
  cases s with
  | mk d =>
    cases d with
    | nil => exact absurd rfl h
    | cons a l => simp [strLen]

theorem nickKnown_iff (st : DaemonState) (n : String) :
    nickKnown st n = true ↔
      ∃ i ∈ st.clients, ∃ c, st.clientHeap.lookup i = some c ∧ c.nickname = n := by
  unfold nickKnown
  rw [List.any_eq_true]
  constructor
  · rintro ⟨i, hi, hp⟩
    cases hl : st.clientHeap.lookup i with
    | none => rw [hl] at hp; simp at hp
    | some c =>
      rw [hl] at hp
      simp only [beq_iff_eq] at hp
      exact ⟨i, hi, c, hl, hp⟩
  · rintro ⟨i, hi, c, hl, hn⟩
    refine ⟨i, hi, ?_⟩
    rw [hl]
    simp [hn]

theorem handleCmd_ison (env : Env) (st : DaemonState) (cid : Nat) (c : Client)
    (a rest : String) (hrest : rest ≠ "") :
    handleCmd env st cid c "ISON" [a, rest] =
      (st, [.toClient cid (.replyNicknamed "303"
        [joinStr " " ((splitCh ' ' rest).filter (nickKnown st))])], false) := by
  have hlen := strLen_ne_zero rest hrest
  have hlen2 : ¬ strLen rest < 1 := of_decide_eq_false hlen
  simp [handleCmd, hlen]
  omega

/-- **C6** (amended): the single ISON 303 reply lists exactly, in query
order, the queried nicknames that are — by exact (case-sensitive) string
comparison — the stored nickname of some client in the registry, whether
that client is registered or not. -/
theorem ison_reply
    (env : Env) (st : DaemonState) (now cid : Nat) (c : Client) (tx cmdRaw rest : String)
    (hc : st.clientHeap.lookup cid = some c)
    (hreg : c.registered = true)
    (hcols : goSplitN tx ' ' 2 = [cmdRaw, rest])
    (hcmd : upperStr cmdRaw = "ISON")
    (hrest : rest ≠ "") :
    (processEvent env st { client := some cid, eventType := .EventMsg, text := tx } now).2 =
      [.toClient cid (.replyNicknamed "303"
        [joinStr " " ((splitCh ' ' rest).filter (nickKnown st))])] ∧
    ∀ n, n ∈ (splitCh ' ' rest).filter (nickKnown st) ↔
      (n ∈ splitCh ' ' rest ∧
        ∃ i ∈ st.clients, ∃ c2, st.clientHeap.lookup i = some c2 ∧ c2.nickname = n) := by
  constructor
  · have hq : (("ISON" : String) == "QUIT") = false := by decide
    have hh := handleCmd_ison env st cid c cmdRaw rest hrest
    simp only [processEvent, dispatchEvent, hcols, List.getD_cons_zero, hc, hcmd, hq,
      Bool.false_eq_true, if_false, hreg, Bool.not_true, hh]
  · intro n
    simp [List.mem_filter, nickKnown_iff]

/-- Witness for `ison_reply` on a concrete registry (registered alice,
unregistered bob). -/
theorem ison_reply_witness :
    (processEvent envPw stIsonW
      { client := some 0, eventType := .EventMsg, text := "ISON bob Alice" } 0).2 =
      [.toClient 0 (.replyNicknamed "303"
        [joinStr " " ((splitCh ' ' "bob Alice").filter (nickKnown stIsonW))])] ∧
    ((splitCh ' ' "bob Alice").filter (nickKnown stIsonW) = ["bob"]) :=
  ⟨(ison_reply envPw stIsonW 0 0 aliceReg "ISON bob Alice" "ISON" "bob Alice" rfl rfl
      (by decide) (by decide) (by decide)).1,
   by decide⟩

/-- **C6** counterexample: `ISON bob Alice` issued by registered `alice`
while `bob` is only an unregistered connection replies `303 bob`: the
unregistered nickname is listed, and the registered nickname queried in
different case (`Alice`) is not, contradicting both parts of the claim. -/
theorem ison_counterexample :
    bobHalf.registered = false ∧ aliceReg.nickname = "alice" ∧
    (processEvent envPw stIsonW
      { client := some 0, eventType := .EventMsg, text := "ISON bob Alice" } 0).2
      = [.toClient 0 (.replyNicknamed "303" ["bob"])] :=
  ⟨rfl, rfl, by decide⟩

theorem entry_eq_of_nodup {κ α : Type} [BEq κ] [LawfulBEq κ] :
    ∀ l : List (κ × α), (l.map Prod.fst).Nodup →
      ∀ k v, l.lookup k = some v → ∀ p ∈ l, p.1 = k → p = (k, v)
  | [], _, k, v, h => by simp [List.lookup] at h
  | (k', v') :: rest, hnd, k, v, hl => by
    intro p hp hpk
    have hnd2 : k' ∉ rest.map Prod.fst ∧ (rest.map Prod.fst).Nodup := by
      rw [List.map_cons] at hnd
      exact List.nodup_cons.mp hnd
    by_cases hkk : k = k'
    · subst hkk
      have hv : v' = v := by simpa [List.lookup] using hl
      subst hv
      rcases List.mem_cons.mp hp with rfl | hm
      · rfl
      · exact absurd (hpk ▸ List.mem_map_of_mem Prod.fst hm) hnd2.1
    · have hbe : (k == k') = false := beq_false_of_ne hkk
      have hl2 : rest.lookup k = some v := by simpa [List.lookup, hbe] using hl
      rcases List.mem_cons.mp hp with rfl | hm
      · exact absurd hpk (fun h => hkk h.symm)
      · exact entry_eq_of_nodup rest hnd2.2 k v hl2 p hm hpk

theorem closeSink_foldr_mem (sinks : List (Nat × Nat)) :
    ∀ rids : List Nat, ∀ rid s, rid ∈ rids → sinks.lookup rid = some s →
      Output.closeSink s ∈ rids.foldr (fun r acc =>
        (match sinks.lookup r with
         | some s2 => [Output.closeSink s2]
         | none => []) ++ acc) []
  | [], rid, s, h, _ => by simp at h
  | r :: rest, rid, s, h, hl => by
    rw [List.foldr_cons]
    rcases List.mem_cons.mp h with rfl | hm
    · apply List.mem_append_left
      rw [hl]
      simp
    · exact List.mem_append_right _ (closeSink_foldr_mem sinks rest rid s hm hl)

theorem tickRooms_gc (env : Env) (s : DaemonState)
    (hndR : (s.rooms.map Prod.fst).Nodup)
    (hsd : env.statedir = "")
    (name : String) (rid : Nat)
    (hlook : s.rooms.lookup name = some rid)
    (hempty : roomEmptyB s.roomHeap rid = true) :
    (tickRooms env s).1.rooms.lookup name = none ∧
    (tickRooms env s).1.roomSinks.lookup rid = none ∧
    ∀ sk, s.roomSinks.lookup rid = some sk →
      Output.closeSink sk ∈ (tickRooms env s).2 := by
  have hsd2 : (env.statedir == "") = true := by simp [hsd]
  have hremoved : rid ∈ (s.rooms.filter (fun p => roomEmptyB s.roomHeap p.2)).map Prod.snd :=
    List.mem_map.mpr ⟨(name, rid),
      List.mem_filter.mpr ⟨mem_of_lookup_eq_some hlook, hempty⟩, rfl⟩
  refine ⟨?_, ?_, ?_⟩
  · unfold tickRooms
    rw [if_pos hsd2]
    apply lookup_filter_of_none
    intro p hp hpk
    have hpe := entry_eq_of_nodup s.rooms hndR name rid hlook p hp hpk
    rw [hpe]
    simp [hempty]
  · unfold tickRooms
    rw [if_pos hsd2]
    apply lookup_filter_of_none
    intro p _ hpk
    have hcont : ((s.rooms.filter (fun q => roomEmptyB s.roomHeap q.2)).map Prod.snd).contains
        p.1 = true := by
      rw [hpk]
      exact List.elem_iff.mpr hremoved
    show (!((s.rooms.filter (fun q => roomEmptyB s.roomHeap q.2)).map Prod.snd).contains p.1)
        = false
    rw [hcont]
    rfl
  · intro sk hsk
    unfold tickRooms
    rw [if_pos hsd2]
    exact closeSink_foldr_mem s.roomSinks _ rid sk hremoved hsk

/-- **C7**: on EventTick with no state directory configured every room
whose member set is empty is deleted from the registry, removed from the
sink map and its channel closed; with a state directory configured the
room registry and sink map are untouched by the tick. -/
theorem tick_empty_room_gc
    (env : Env) (st : DaemonState) (now : Nat)
    (hndR : (st.rooms.map Prod.fst).Nodup) :
    (env.statedir = "" →
      ∀ name rid, st.rooms.lookup name = some rid → roomEmptyB st.roomHeap rid = true →
        (processEvent env st tickEv now).1.rooms.lookup name = none ∧
        (processEvent env st tickEv now).1.roomSinks.lookup rid = none ∧
        ∀ s, st.roomSinks.lookup rid = some s →
          Output.closeSink s ∈ (processEvent env st tickEv now).2) ∧
    (env.statedir ≠ "" →
      (processEvent env st tickEv now).1.rooms = st.rooms ∧
      (processEvent env st tickEv now).1.roomSinks = st.roomSinks) := by
  have hst1 : (processEvent env st tickEv now).1 =
      (tickRooms env { st with clientHeap := (tickHeap env now st.clients st.clientHeap).1 }).1 :=
    rfl
  have hst2 : (processEvent env st tickEv now).2 =
      (tickHeap env now st.clients st.clientHeap).2 ++
      (tickRooms env { st with clientHeap := (tickHeap env now st.clients st.clientHeap).1 }).2 :=
    rfl
  constructor
  · intro hsd name rid hlook hempty
    have hg := tickRooms_gc env
      { st with clientHeap := (tickHeap env now st.clients st.clientHeap).1 }
      hndR hsd name rid hlook hempty
    refine ⟨by rw [hst1]; exact hg.1, by rw [hst1]; exact hg.2.1, ?_⟩
    intro s hs
    rw [hst2]
    exact List.mem_append_right _ (hg.2.2 s hs)
  · intro hsd
    have hsd2 : (env.statedir == "") = false := beq_false_of_ne hsd
    rw [hst1]
    unfold tickRooms
    rw [if_neg (by simp [hsd2])]
    exact ⟨rfl, rfl⟩

/-- Witness for `tick_empty_room_gc`: the empty room `#e` of `stRooms`
is collected when no state directory is set and kept when one is. -/
theorem tick_empty_room_gc_witness :
    (processEvent { } stRooms tickEv 0).1.rooms.lookup "#e" = none ∧
    (processEvent { } stRooms tickEv 0).1.roomSinks.lookup 1 = none ∧
    Output.closeSink 1 ∈ (processEvent { } stRooms tickEv 0).2 ∧
    (processEvent envSD stRooms tickEv 0).1.rooms = stRooms.rooms :=
  ⟨((tick_empty_room_gc { } stRooms 0 (by decide)).1 rfl "#e" 1 (by decide) (by decide)).1,
   ((tick_empty_room_gc { } stRooms 0 (by decide)).1 rfl "#e" 1 (by decide) (by decide)).2.1,
   ((tick_empty_room_gc { } stRooms 0 (by decide)).1 rfl "#e" 1 (by decide) (by decide)).2.2
     1 (by decide),
   ((tick_empty_room_gc envSD stRooms 0 (by decide)).2 (by decide)).1⟩

/-- **C8** (amended): each readable startup state file pre-registers a
room under the file's name; a file with at least two newline-separated
fields sets topic and key from them, while a corrupted file (fewer than
two) leaves the room with empty topic and key — the room is still
pre-registered.  A read error is fatal. -/
theorem load_state_file (st : DaemonState) (name content : String) :
    (loadOneState st (name, some content)).1.rooms.lookup name = some st.nextId ∧
    (loadOneState st (name, some content)).1.roomHeap.lookup st.nextId =
      some (if (splitCh '\n' content).length < 2 then { name := name }
            else { name := name, topic := (splitCh '\n' content).getD 0 "",
                   key := (splitCh '\n' content).getD 1 "" }) ∧
    (loadOneState st (name, none)).2 = [.fatal "Can not read state"] := by
  refine ⟨?_, ?_, rfl⟩
  · simp only [loadOneState, RoomRegister, lookup_insA_self]
    split
    · exact lookup_insA_self _ _ _
    · exact lookup_insA_self _ _ _
  · simp only [loadOneState, RoomRegister, lookup_insA_self]
    split
    · exact lookup_insA_self _ _ _
    · simp only [putR]
      exact lookup_insA_self _ _ _

/-- **C8** counterexample: a state file with fewer than two lines is not
skipped — `RoomRegister` has already run, so the room is pre-registered
(with empty topic and key). -/
theorem corrupted_state_still_registers :
    ((splitCh '\n' "only one line").length < 2) = True ∧
    (loadOneState { } ("#x", some "only one line")).1.rooms.lookup "#x" = some 0 ∧
    (loadOneState { } ("#x", some "only one line")).1.roomHeap.lookup 0 =
      some { name := "#x" } :=
  ⟨by decide, by decide, by decide⟩

theorem RoomRegister_synced (st : DaemonState) (name : String)
    (h : roomsSinksSynced st = true) :
    roomsSinksSynced (RoomRegister st name).1 = true := by
  rw [roomsSinksSynced, List.all_eq_true] at h ⊢
  intro p hp
  simp only [RoomRegister] at hp ⊢
  have hp2 : p = (name, st.nextId) ∨ p ∈ st.rooms ∧ ¬p.1 = name := by
    simpa [insA] using hp
  rcases hp2 with heq | ⟨hmem, _⟩
  · rw [heq]
    simp [lookup_insA_self]
  · have hsome := h p hmem
    by_cases hpk : p.2 = st.nextId
    · rw [hpk]
      simp [lookup_insA_self]
    · rw [lookup_insA_ne _ _ _ _ hpk]
      exact hsome

theorem joinOne_synced (st : DaemonState) (cid : Nat) (keys : List String) (n : Nat)
    (name : String) (h : roomsSinksSynced st = true) :
    roomsSinksSynced (joinOne st cid keys n name).1 = true := by
  unfold joinOne
  repeat' first | split | dsimp only
  all_goals first
    | exact h
    | exact RoomRegister_synced st name h

theorem joinLoop_synced (cid : Nat) (keys : List String) :
    ∀ rs : List String, ∀ st : DaemonState, ∀ n : Nat, roomsSinksSynced st = true →
      roomsSinksSynced (joinLoop cid keys st n rs).1 = true
  | [], _, _, h => h
  | name :: rest, st, n, h =>
    joinLoop_synced cid keys rest (joinOne st cid keys n name).1 (n + 1)
      (joinOne_synced st cid keys n name h)

theorem HandlerJoin_synced (st : DaemonState) (cid : Nat) (cmd : String)
    (h : roomsSinksSynced st = true) :
    roomsSinksSynced (HandlerJoin st cid cmd).1 = true := by
  unfold HandlerJoin
  exact joinLoop_synced cid _ _ st 0 h

theorem registerCheck_synced (env : Env) (st : DaemonState) (cid : Nat) :
    roomsSinksSynced (registerCheck env st cid).1 = roomsSinksSynced st := by
  unfold registerCheck
  repeat' first | split | dsimp only
  all_goals rfl

theorem ClientRegister_synced (env : Env) (st : DaemonState) (cid : Nat) (cmd : String)
    (cols : List String) :
    roomsSinksSynced (ClientRegister env st cid cmd cols).1 = roomsSinksSynced st := by
  unfold ClientRegister
  split
  · rfl
  · dsimp only
    split
    · rfl
    · rw [registerCheck_synced]
      rfl

theorem handleMsgCmd_fst (st : DaemonState) (cid : Nat) (c : Client) (cmd : String)
    (cols : List String) : (handleMsgCmd st cid c cmd cols).1 = st := by
  unfold handleMsgCmd
  repeat' first | split | dsimp only

theorem handleCmd_synced (env : Env) (st : DaemonState) (cid : Nat) (c : Client)
    (cmd : String) (cols : List String) (h : roomsSinksSynced st = true) :
    roomsSinksSynced (handleCmd env st cid c cmd cols).1 = true := by
  unfold handleCmd
  repeat' first | split | dsimp only
  all_goals first
    | exact h
    | exact HandlerJoin_synced st cid _ h
    | (rw [handleMsgCmd_fst]; exact h)

theorem tickRooms_synced (env : Env) (st : DaemonState)
    (h : roomsSinksSynced st = true) :
    roomsSinksSynced (tickRooms env st).1 = true := by
  unfold tickRooms
  split
  · rw [roomsSinksSynced, List.all_eq_true] at h ⊢
    intro p hp
    have hp' := List.mem_of_mem_filter hp
    have hpred := List.of_mem_filter hp
    have hsome := h p hp'
    dsimp only
    rw [lookup_filter_of_all]
    · exact hsome
    · intro q _ hqk
      rw [hqk]
      cases hc : (((st.rooms.filter (fun r => roomEmptyB st.roomHeap r.2)).map
          Prod.snd).contains p.2) with
      | false => rfl
      | true =>
        exfalso
        have hmem := List.elem_iff.mp hc
        rcases List.mem_map.mp hmem with ⟨q2, hq2, hq2e⟩
        have hqpred := List.of_mem_filter hq2
        rw [hq2e] at hqpred
        simp [hqpred] at hpred
  · exact h

theorem tickState_synced (env : Env) (st : DaemonState) (now : Nat)
    (h : roomsSinksSynced st = true) :
    roomsSinksSynced (tickState env st now).1 = true := by
  unfold tickState
  exact tickRooms_synced env _ h

theorem dispatchEvent_synced (env : Env) (st : DaemonState) (ev : ClientEvent) (now : Nat)
    (h : roomsSinksSynced st = true) :
    roomsSinksSynced (dispatchEvent env st ev now).1 = true := by
  unfold dispatchEvent
  repeat' first | split | dsimp only
  all_goals first
    | exact h
    | exact tickState_synced env st now h
    | (rw [ClientRegister_synced]; exact h)
    | exact handleCmd_synced env st _ _ _ _ h

theorem processEvent_synced (env : Env) (st : DaemonState) (ev : ClientEvent) (now : Nat)
    (h : roomsSinksSynced st = true) :
    roomsSinksSynced (processEvent env st ev now).1 = true := by
  unfold processEvent
  repeat' first | split | dsimp only
  all_goals exact dispatchEvent_synced env st ev now h

/-- **C9**: the `rooms` and `roomSinks` maps stay in correspondence:
`RoomRegister` inserts into both and every daemon event (including tick
garbage collection) preserves the correspondence, so a sink lookup for
any room found in `rooms` succeeds. -/
theorem rooms_sinks_sync (env : Env) (st : DaemonState)
    (hs : roomsSinksSynced st = true) :
    (∀ name, roomsSinksSynced (RoomRegister st name).1 = true) ∧
    (∀ ev now, roomsSinksSynced (processEvent env st ev now).1 = true) ∧
    (∀ name rid, st.rooms.lookup name = some rid →
      ∃ s, st.roomSinks.lookup rid = some s) :=
  ⟨fun name => RoomRegister_synced st name hs,
   fun ev now => processEvent_synced env st ev now hs,
   fun name rid hl => by
     rw [roomsSinksSynced, List.all_eq_true] at hs
     have hsome := hs (name, rid) (mem_of_lookup_eq_some hl)
     exact Option.isSome_iff_exists.mp hsome⟩

/-- Witness for `rooms_sinks_sync` on the concrete keyed-room registry. -/
theorem rooms_sinks_sync_witness :
    roomsSinksSynced (RoomRegister stKeyed "#q").1 = true ∧
    roomsSinksSynced (processEvent { } stKeyed tickEv 0).1 = true ∧
    ∃ s, stKeyed.roomSinks.lookup 3 = some s :=
  ⟨(rooms_sinks_sync { } stKeyed (by decide)).1 "#q",
   (rooms_sinks_sync { } stKeyed (by decide)).2.1 tickEv 0,
   (rooms_sinks_sync { } stKeyed (by decide)).2.2 "#r" 3 (by decide)⟩

theorem joinOne_fresh (st : DaemonState) (cid : Nat) (keys : List String) (n : Nat)
    (name : String)
    (hvalid : RoomNameValid name = true)
    (hfind : findRS st.roomHeap name st.roomSinks = none) :
    (joinOne st cid keys n name).1.rooms.lookup name = some st.nextId := by
  simp only [joinOne, hvalid, Bool.not_true, Bool.false_eq_true, if_false, hfind,
    RoomRegister]
  repeat' first | split | dsimp only
  all_goals exact lookup_insA_self _ _ _

theorem handleMsgCmd_noNick (st : DaemonState) (cid : Nat) (c : Client) (cmd : String)
    (a rest t0 payload : String)
    (hrest2 : goSplitN rest ' ' 2 = [t0, payload])
    (hnonick : findByNick st (lowerStr t0) = none)
    (hlow : st.rooms.lookup (lowerStr t0) = none) :
    handleMsgCmd st cid c cmd [a, rest] =
      (st, [.toClient cid (.noNickChan (lowerStr t0))], false) := by
  simp [handleMsgCmd, hrest2, hnonick, hlow]

theorem handleMsgCmd_roomForward (st : DaemonState) (cid : Nat) (c : Client) (cmd : String)
    (a rest t0 payload : String) (rid2 s2 : Nat)
    (hrest2 : goSplitN rest ' ' 2 = [t0, payload])
    (hnonick : findByNick st (lowerStr t0) = none)
    (hlook : st.rooms.lookup (lowerStr t0) = some rid2)
    (hsink : st.roomSinks.lookup rid2 = some s2) :
    handleMsgCmd st cid c cmd [a, rest] =
      (st, [.toRoom s2 { client := some cid, eventType := .EventMsg,
                         text := cmd ++ " " ++ goTrimLeft payload ':' }], false) := by
  simp [handleMsgCmd, hrest2, hnonick, hlook, sendToRoom, hsink]

theorem processEvent_handleMsg (env : Env) (st : DaemonState) (now cid : Nat) (c : Client)
    (tx cmdRaw rest : String) (outs : List Output)
    (hc : st.clientHeap.lookup cid = some c)
    (hreg : c.registered = true)
    (hcols : goSplitN tx ' ' 2 = [cmdRaw, rest])
    (hcmd : upperStr cmdRaw = "PRIVMSG" ∨ upperStr cmdRaw = "NOTICE")
    (hmm : handleMsgCmd st cid c (upperStr cmdRaw) [cmdRaw, rest] = (st, outs, false)) :
    (processEvent env st { client := some cid, eventType := .EventMsg, text := tx } now).2
      = outs := by
  rcases hcmd with h | h
  · rw [h] at hmm
    have hq : (("PRIVMSG" : String) == "QUIT") = false := by decide
    simp only [processEvent, dispatchEvent, hcols, List.getD_cons_zero, hc, h, hq,
      Bool.false_eq_true, if_false, hreg, Bool.not_true]
    rw [show handleCmd env st cid c "PRIVMSG" [cmdRaw, rest]
        = handleMsgCmd st cid c "PRIVMSG" [cmdRaw, rest] from rfl, hmm]
    simp [hc]
  · rw [h] at hmm
    have hq : (("NOTICE" : String) == "QUIT") = false := by decide
    simp only [processEvent, dispatchEvent, hcols, List.getD_cons_zero, hc, h, hq,
      Bool.false_eq_true, if_false, hreg, Bool.not_true]
    rw [show handleCmd env st cid c "NOTICE" [cmdRaw, rest]
        = handleMsgCmd st cid c "NOTICE" [cmdRaw, rest] from rfl, hmm]
    simp [hc]

/-- **C10** (amended): JOIN registers rooms under their original-case
name, while PRIVMSG and NOTICE ASCII-lower-case the target before the
room-registry lookup; a message addressed to an existing room whose
registered name contains an upper-case letter is therefore never
forwarded to that room: if no room is registered under the lowered name
the sender receives numeric 401, and if a lower-case twin is registered
the message is forwarded to the twin's sink instead. -/
theorem privmsg_lowercased_target
    (env : Env) (st : DaemonState) (now cid : Nat) (c : Client)
    (hc : st.clientHeap.lookup cid = some c)
    (hreg : c.registered = true) :
    (∀ name cmdJ, RoomNameValid name = true → splitCh ',' name = [name] →
      splitCh ' ' cmdJ = [name] → findRS st.roomHeap name st.roomSinks = none →
      (HandlerJoin st cid cmdJ).1.rooms.lookup name = some st.nextId) ∧
    (∀ tx cmdRaw rest t0 payload N rid,
      goSplitN tx ' ' 2 = [cmdRaw, rest] →
      (upperStr cmdRaw = "PRIVMSG" ∨ upperStr cmdRaw = "NOTICE") →
      goSplitN rest ' ' 2 = [t0, payload] →
      st.rooms.lookup N = some rid →
      lowerStr N ≠ N → lowerStr t0 = lowerStr N →
      findByNick st (lowerStr t0) = none →
      (st.rooms.lookup (lowerStr t0) = none →
        (processEvent env st { client := some cid, eventType := .EventMsg, text := tx }
            now).2 = [.toClient cid (.noNickChan (lowerStr t0))]) ∧
      (∀ rid2 s2, st.rooms.lookup (lowerStr t0) = some rid2 →
        st.roomSinks.lookup rid2 = some s2 →
        (processEvent env st { client := some cid, eventType := .EventMsg, text := tx }
            now).2 =
          [.toRoom s2 { client := some cid, eventType := .EventMsg,
                          text := upperStr cmdRaw ++ " " ++ goTrimLeft payload ':' }] ∧
        ∀ s ev2, st.roomSinks.lookup rid = some s → s ≠ s2 →
          Output.toRoom s ev2 ∉
            (processEvent env st { client := some cid, eventType := .EventMsg, text := tx }
              now).2)) := by
  constructor
  · intro name cmdJ hvalid hname hcmdJ hfind
    have hone : ∀ keys, (joinOne st cid keys 0 name).1.rooms.lookup name = some st.nextId :=
      fun keys => joinOne_fresh st cid keys 0 name hvalid hfind
    simp only [HandlerJoin, hcmdJ, List.getD_cons_zero, hname, joinLoop]
    exact hone _
  · intro tx cmdRaw rest t0 payload N rid hcols hcmd hrest2 _ _ _ hnonick
    constructor
    · intro hlow
      exact processEvent_handleMsg env st now cid c tx cmdRaw rest _ hc hreg hcols hcmd
        (handleMsgCmd_noNick st cid c (upperStr cmdRaw) cmdRaw rest t0 payload hrest2
          hnonick hlow)
    · intro rid2 s2 hlow hsink
      have heq := processEvent_handleMsg env st now cid c tx cmdRaw rest _ hc hreg hcols hcmd
        (handleMsgCmd_roomForward st cid c (upperStr cmdRaw) cmdRaw rest t0 payload rid2 s2
          hrest2 hnonick hlow hsink)
      refine ⟨heq, ?_⟩
      intro s ev2 _ hne hmem
      rw [heq] at hmem
      simp only [List.mem_singleton] at hmem
      injection hmem with h1 h2
      exact hne h1

/-- Witness for `privmsg_lowercased_target`: a fresh JOIN keeps the
original case; with only `#Big` registered, `PRIVMSG #Big :hi` draws 401
for `#big`; with the twin `#big` also registered, `NOTICE #Big :hi` is
forwarded to the twin's sink. -/
theorem privmsg_lowercased_target_witness :
    (HandlerJoin stUpper 0 "#new").1.rooms.lookup "#new" = some stUpper.nextId ∧
    (processEvent envPw stUpper
      { client := some 0, eventType := .EventMsg, text := "PRIVMSG #Big :hi" } 9).2
      = [.toClient 0 (.noNickChan (lowerStr "#Big"))] ∧
    (processEvent envPw stTwin
      { client := some 0, eventType := .EventMsg, text := "NOTICE #Big :hi" } 9).2
      = [.toRoom 7 { client := some 0, eventType := .EventMsg,
                       text := upperStr "NOTICE" ++ " " ++ goTrimLeft ":hi" ':' }] :=
  ⟨(privmsg_lowercased_target envPw stUpper 9 0 aliceReg rfl rfl).1 "#new" "#new" (by decide)
      (by decide) (by decide) (by decide),
   ((privmsg_lowercased_target envPw stUpper 9 0 aliceReg rfl rfl).2 "PRIVMSG #Big :hi"
      "PRIVMSG" "#Big :hi" "#Big" ":hi" "#Big" 5 (by decide) (Or.inl (by decide)) (by decide)
      (by decide) (by decide) (by decide) (by decide)).1 (by decide),
   (((privmsg_lowercased_target envPw stTwin 9 0 aliceReg rfl rfl).2 "NOTICE #Big :hi"
      "NOTICE" "#Big :hi" "#Big" ":hi" "#Big" 5 (by decide) (Or.inr (by decide)) (by decide)
      (by decide) (by decide) (by decide) (by decide)).2 7 7 (by decide) (by decide)).1⟩

/-- **C10** counterexample: with rooms registered under both `#Big` and
`#big` (both names pass the channel rule), `PRIVMSG #Big :hi` from a
registered client is forwarded to the lower-case twin's sink and no 401
is sent, so a PRIVMSG to an existing upper-case-named room is not always
answered with numeric 401. -/
theorem privmsg_twin_room_counterexample :
    RoomNameValid "#Big" = true ∧ RoomNameValid "#big" = true ∧
    stTwin.rooms.lookup "#Big" = some 5 ∧ stTwin.rooms.lookup "#big" = some 7 ∧
    (processEvent envPw stTwin
      { client := some 0, eventType := .EventMsg, text := "PRIVMSG #Big :hi" } 9).2
      = [.toRoom 7 { client := some 0, eventType := .EventMsg, text := "PRIVMSG hi" }] :=
  ⟨by decide, by decide, by decide, by decide, by decide⟩
